import Mathlib

/-!
Verification development for a tabular data-profiling pipeline
(`backend/eda_engine.py`).  The Python source is shallowly embedded:

* numeric cells are exact rationals (Python floats idealised as `ℚ`;
  the 0.8/0.6 fractional thresholds of the source are modelled exactly,
  which agrees with the float computations of the source for all
  realistic sample sizes);
* a Python value tree (the JSON-ish report) is the mutual inductive
  `PyVal`/`PyList`/`PyDict`; Python/NumPy floats are `FV`, which keeps
  the non-finite values `nan`, `inf`, `-inf` explicit;
* calls into pandas/NumPy that the pipeline treats as black boxes
  (per-value date parsing, per-value numeric coercion, float-valued
  statistics such as std/skew/kurtosis/corr, `df.info()` text) are
  collected in the oracle bundle `Lib` and quantified over, so every
  theorem below holds for the actual library behaviour;
* fallible steps return `Option`; missing cells are `Option.none`.
-/

/-- Model of a Python/NumPy floating point value: a finite rational or one
of the non-finite values NaN, +Inf, -Inf. -/
inductive FV where
  | fin (q : ℚ) : FV
  | nan : FV
  | inf : FV
  | ninf : FV
  deriving DecidableEq, Repr

/-- Whether a float value is finite (neither NaN nor an infinity); this is
the complement of the `np.isnan(obj) or np.isinf(obj)` test of `clean_json`. -/
def FV.isFinite : FV → Bool
  | .fin _ => true
  | _ => false

/-- A non-missing value stored in a pandas `object` column: either a string
or a (boxed) number. -/
inductive PyObj where
  | ostr (s : String) : PyObj
  | onum (q : ℚ) : PyObj
  deriving DecidableEq, Repr

mutual
/-- A Python value as seen by `clean_json`: `None`, bool, int, float
(`pFloat`, which includes `np.float64` since that type *subclasses* the
Python `float` that `isinstance(obj, float)` tests), NumPy integers
(`pNpInt`), NumPy floats that are **not** Python floats such as
`np.float32` (`pNpF32`), strings, lists and string-keyed dicts. -/
inductive PyVal where
  | pNone : PyVal
  | pBool (b : Bool) : PyVal
  | pInt (z : ℤ) : PyVal
  | pFloat (f : FV) : PyVal
  | pNpInt (z : ℤ) : PyVal
  | pNpF32 (f : FV) : PyVal
  | pStr (s : String) : PyVal
  | pList (xs : PyList) : PyVal
  | pDict (kvs : PyDict) : PyVal
  deriving DecidableEq
/-- A Python list of `PyVal`s. -/
inductive PyList where
  | nil : PyList
  | cons (hd : PyVal) (tl : PyList) : PyList
  deriving DecidableEq
/-- A Python dict with string keys and `PyVal` values, in insertion order. -/
inductive PyDict where
  | nil : PyDict
  | cons (k : String) (v : PyVal) (tl : PyDict) : PyDict
  deriving DecidableEq
end

/-- The keys of a `PyDict`, in order. -/
def PyDict.keys : PyDict → List String
  | .nil => []
  | .cons k _ tl => k :: tl.keys

/-- Look a key up in a `PyDict` (first match, as in a Python dict where
the literal below never repeats a key). -/
def PyDict.lookup (k : String) : PyDict → Option PyVal
  | .nil => none
  | .cons k' v tl => if k' = k then some v else tl.lookup k

/-- Values of a `PyDict`, in order. -/
def PyDict.values : PyDict → List PyVal
  | .nil => []
  | .cons _ v tl => v :: tl.values

mutual
/-- `clean_json` (eda_engine.py lines 9-21), branch for branch:
dicts and lists are rebuilt with converted contents; a Python `float`
(which `np.float64` is) becomes `None` when non-finite and otherwise
falls through the `elif` chain and is returned unchanged; a NumPy
integer becomes a Python int; a NumPy float that is *not* a Python
float (e.g. `np.float32`) is converted with `float(obj)`, which keeps
its numeric value — including NaN/Inf; everything else is returned
unchanged. -/
def clean_json : PyVal → PyVal
  | .pDict kvs => .pDict (clean_json_dict kvs)
  | .pList xs => .pList (clean_json_list xs)
  | .pFloat f => if f.isFinite then .pFloat f else .pNone
  | .pNpInt z => .pInt z
  | .pNpF32 f => .pFloat f
  | .pNone => .pNone
  | .pBool b => .pBool b
  | .pInt z => .pInt z
  | .pStr s => .pStr s
/-- `clean_json` mapped over a list (`[clean_json(v) for v in obj]`). -/
def clean_json_list : PyList → PyList
  | .nil => .nil
  | .cons h t => .cons (clean_json h) (clean_json_list t)
/-- `clean_json` mapped over dict values
(`{k: clean_json(v) for k, v in obj.items()}`); keys are untouched. -/
def clean_json_dict : PyDict → PyDict
  | .nil => .nil
  | .cons k v t => .cons k (clean_json v) (clean_json_dict t)
end

theorem clean_json_dict_keys : ∀ (d : PyDict), (clean_json_dict d).keys = d.keys
  | .nil => rfl
  | .cons k v t => by simp [clean_json_dict, PyDict.keys, clean_json_dict_keys t]

/-- Python `str.strip()` as used by the pandas `.str.strip()` accessor:
drop leading and trailing whitespace characters. -/
def pyStrip (s : String) : String :=
  String.mk (((s.data.dropWhile Char.isWhitespace).reverse.dropWhile Char.isWhitespace).reverse)

/-- The string pandas shows for a missing value once it has been rendered
through `astype(str)` / `str(k)` (a float NaN prints as `nan`). -/
def sNanStr : String := "nan"

/-- Render a non-missing object-column value as a string, as
`astype(str)` does (the numeric print format is an approximation of
Python's float formatting; no theorem below depends on it). -/
def pyObjStr : PyObj → String
  | .ostr s => s
  | .onum q => toString q

/-- Render an object-column cell as `astype(str)` does: a missing cell
(a float NaN at that point of the pipeline) becomes the string `nan`. -/
def astypeStrCell : Option PyObj → String
  | none => sNanStr
  | some o => pyObjStr o

/-- A dataframe column with its storage dtype: `num` is a numeric dtype
(ints and floats merged; both satisfy `pd.api.types.is_numeric_dtype`),
`obj` is the `object` dtype of text-like columns, `dt` is `datetime64`
(cells are timestamps). A missing cell is `none`. -/
inductive Col where
  | num (cells : List (Option ℚ)) : Col
  | obj (cells : List (Option PyObj)) : Col
  | dt (cells : List (Option ℤ)) : Col
  deriving DecidableEq

/-- Number of cells of a column. -/
def Col.length : Col → ℕ
  | .num cells => cells.length
  | .obj cells => cells.length
  | .dt cells => cells.length

/-- `df[col].isnull().sum()`. -/
def Col.missingCount : Col → ℕ
  | .num cells => cells.countP (fun c => c.isNone)
  | .obj cells => cells.countP (fun c => c.isNone)
  | .dt cells => cells.countP (fun c => c.isNone)

/-- Count of non-missing cells (`dropna()` length / `notna().sum()`). -/
def Col.notnaCount : Col → ℕ
  | .num cells => cells.countP (fun c => c.isSome)
  | .obj cells => cells.countP (fun c => c.isSome)
  | .dt cells => cells.countP (fun c => c.isSome)

/-- An in-memory dataset: a row count and named columns (pandas column
order preserved; in a well-formed frame every column has `nrows` cells). -/
structure DataFrame where
  nrows : ℕ
  cols : List (String × Col)
  deriving DecidableEq

/-- Oracle bundle for the pandas/NumPy primitives the pipeline calls but
does not implement: per-value date parsing for a given format string
(`pd.to_datetime(..., format=fmt, errors="coerce")`), the generic
locale-agnostic parse (`pd.to_datetime(..., infer_datetime_format=True)`),
per-value numeric coercion (`pd.to_numeric(..., errors="coerce")`), the
float-valued statistics std/skew/kurtosis, the float Pearson correlation
of two columns, and the `df.info()` text. All theorems are quantified
over this bundle, so they hold for the library's actual behaviour. -/
structure Lib where
  parseFmt : String → String → Option ℤ
  parseGen : String → Option ℤ
  toNumeric : PyObj → Option ℚ
  stdF : List ℚ → FV
  skewF : List ℚ → FV
  kurtF : List ℚ → FV
  corrF : List (Option ℚ) → List (Option ℚ) → FV
  infoStr : ℕ → ℕ → String

/-- Round half to even at integer precision, the tie behaviour of
Python's `round`. -/
def roundHE (x : ℚ) : ℤ :=
  if x - ⌊x⌋ < 1/2 then ⌊x⌋
  else if 1/2 < x - ⌊x⌋ then ⌊x⌋ + 1
  else if Even ⌊x⌋ then ⌊x⌋ else ⌊x⌋ + 1

/-- Python `round(x, k)` on the exact value. -/
def roundScale (k : ℕ) (x : ℚ) : ℚ := (roundHE (x * (10 : ℚ) ^ k) : ℚ) / (10 : ℚ) ^ k

/-- Python `round(x, 4)`, the rounding used throughout the reports. -/
def round4 (x : ℚ) : ℚ := roundScale 4 x

/-- Python `round(x, 2)`, used for percentage fields. -/
def round2 (x : ℚ) : ℚ := roundScale 2 x

/-- The static ordered catalog `DATE_FORMATS` (eda_engine.py lines 27-35). -/
def DATE_FORMATS : List String :=
  ["%Y-%m-%d", "%Y/%m/%d", "%Y.%m.%d",
   "%d/%m/%Y", "%d-%m-%Y", "%d.%m.%Y", "%d/%m/%y", "%d-%m-%y",
   "%m/%d/%Y", "%m-%d-%Y", "%m/%d/%y",
   "%d %b %Y", "%d %B %Y", "%B %d, %Y", "%b %d, %Y",
   "%d-%b-%Y", "%d-%B-%Y", "%d %b %y",
   "%Y-%m-%d %H:%M:%S", "%d/%m/%Y %H:%M:%S",
   "%m/%d/%Y %H:%M:%S", "%Y-%m-%dT%H:%M:%S"]

/-- The sample of `detect_date_format`: `series.dropna().head(50).astype(str)`,
the first (at most) 50 non-missing values rendered as strings. -/
def dateSample (cells : List (Option PyObj)) : List String :=
  ((cells.filterMap id).take 50).map pyObjStr

/-- How many sample values parse under `fmt` (`parsed.notna().sum()`). -/
def sampleHits (L : Lib) (fmt : String) (sample : List String) : ℕ :=
  sample.countP (fun s => (L.parseFmt fmt s).isSome)

/-- `detect_date_format` (lines 38-47): the first catalog format whose
sample success count reaches 80% of the sample
(`parsed.notna().sum() >= len(sample) * 0.8`, modelled exactly as
`5 * hits >= 4 * len`). With `errors="coerce"` the per-format parse does
not raise, so the `except: continue` path contributes nothing. -/
def detect_date_format (L : Lib) (cells : List (Option PyObj)) : Option String :=
  DATE_FORMATS.find?
    (fun fmt => 4 * (dateSample cells).length ≤ 5 * sampleHits L fmt (dateSample cells))

/-- Full-column parse success count for a format:
`pd.to_datetime(df[col], format=fmt, errors="coerce").notna().sum()`.
A missing cell and a non-string object both coerce to `NaT`. -/
def fullHits (L : Lib) (fmt : String) (cells : List (Option PyObj)) : ℕ :=
  cells.countP (fun c => match c with
    | some (.ostr s) => (L.parseFmt fmt s).isSome
    | _ => false)

/-- The converted column when a format is accepted: each cell is parsed,
unparseable or missing cells become `NaT` (`none`). -/
def parseFullCol (L : Lib) (fmt : String) (cells : List (Option PyObj)) : List (Option ℤ) :=
  cells.map (fun c => match c with
    | some (.ostr s) => L.parseFmt fmt s
    | _ => none)

/-- One column of `try_parse_dates` (lines 50-73): only `object` columns
are considered; if `detect_date_format` finds a format and the
full-column success count exceeds 60% of the row count
(`parsed.notna().sum() > len(df) * 0.6`, modelled exactly as
`5 * hits > 3 * n`) the column is converted in place and recorded,
otherwise it is left unchanged. The `except:` fallback to
`infer_datetime_format` is unreachable here because the coercing
full-column parse does not raise; in particular no fallback runs when
`detect_date_format` returns no format at all. -/
def tryParseCol (L : Lib) (n : ℕ) (c : Col) : Col × Option String :=
  match c with
  | .obj cells =>
    match detect_date_format L cells with
    | some fmt =>
        if 3 * n < 5 * fullHits L fmt cells
        then (.dt (parseFullCol L fmt cells), some fmt)
        else (c, none)
    | none => (c, none)
  | _ => (c, none)

/-- `try_parse_dates` over the whole frame: returns the (possibly
converted) frame, the detected column names and the `{col: fmt}` map. -/
def try_parse_dates (L : Lib) (df : DataFrame) :
    DataFrame × List String × List (String × String) :=
  let results := df.cols.map (fun nc => (nc.1, tryParseCol L df.nrows nc.2))
  (⟨df.nrows, results.map (fun r => (r.1, r.2.1))⟩,
   results.filterMap (fun r => r.2.2.map (fun _ => r.1)),
   results.filterMap (fun r => r.2.2.map (fun f => (r.1, f))))

/-- Column category name used by the imputation reports. -/
def sNumeric : String := "Numeric"

/-- Column category name used by the imputation reports. -/
def sCategorical : String := "Categorical"

/-- How many object cells coerce under `pd.to_numeric(..., errors="coerce")`
(`converted.notna().sum()`); a missing cell never counts. -/
def coerceHits (L : Lib) (cells : List (Option PyObj)) : ℕ :=
  cells.countP (fun c => (c.bind L.toNumeric).isSome)

/-- The coerced column `pd.to_numeric(series, errors="coerce")`:
non-coercible values become NaN (`none`). -/
def coerceCol (L : Lib) (cells : List (Option PyObj)) : List (Option ℚ) :=
  cells.map (fun c => c.bind L.toNumeric)

/-- `get_col_category` (lines 80-93): numeric dtype is Numeric; an object
column is Numeric when strictly more than 60% of its cells coerce
(`converted.notna().sum() > len(series) * 0.6`); anything else —
including datetime columns — is Categorical. -/
def get_col_category (L : Lib) (n : ℕ) : Col → String
  | .num _ => sNumeric
  | .obj cells => if 3 * n < 5 * coerceHits L cells then sNumeric else sCategorical
  | .dt _ => sCategorical

/-- Distinct elements in first-seen order (`seen` accumulates). -/
def firstSeen {α : Type} [DecidableEq α] (seen : List α) : List α → List α
  | [] => []
  | x :: xs => if x ∈ seen then firstSeen seen xs else x :: firstSeen (x :: seen) xs

/-- Each distinct element with its occurrence count, first-seen order. -/
def countsFirstSeen {α : Type} [DecidableEq α] (l : List α) : List (α × ℕ) :=
  (firstSeen [] l).map (fun v => (v, l.count v))

/-- `value_counts().head(k)`: distinct values with counts, stably sorted
by decreasing count (ties keep first-seen order), truncated to `k`. -/
def valueCountsTop (k : ℕ) {α : Type} [DecidableEq α] (l : List α) : List (α × ℕ) :=
  ((countsFirstSeen l).insertionSort (fun a b => b.2 ≤ a.2)).take k

/-- `series.mode(dropna=True)[0]`: pandas sorts the most frequent values
and `[0]` picks the least in sort order; `none` when the series has no
non-missing value. -/
def modeHead (l : List String) : Option String :=
  let cs := countsFirstSeen l
  let mx := ((cs.map Prod.snd).max?).getD 0
  ((cs.filter (fun p => p.2 = mx)).map Prod.fst).min?

/-- The pandas `.str.strip()` accessor applied to one cell: a string is
stripped, a missing cell stays missing, and a non-string object becomes
NaN (the `.str` accessor yields NaN on non-string elements). -/
def stripCell : Option PyObj → Option PyObj
  | some (.ostr s) => some (.ostr (pyStrip s))
  | _ => none

/-- Arithmetic mean of a list of rationals (`Series.mean()` skips missing
values, so callers pass the non-missing values; guarded by emptiness
checks wherever the pandas mean would be NaN). -/
def qMean (l : List ℚ) : ℚ := l.sum / l.length

/-- Key shown for a missing datetime cell rendered through `str`. -/
def sNaTStr : String := "NaT"

/-- Render a numeric cell as `str(k)` does for value-count keys. -/
def numCellStr : Option ℚ → String
  | some q => toString q
  | none => sNanStr

/-- Render a datetime cell as `str(k)` does for value-count keys. -/
def dtCellStr : Option ℤ → String
  | some t => toString t
  | none => sNaTStr

/-- `value_counts(dropna=False).head(10)` of the column as captured
*before* cleaning (object columns are stripped first, line 137). -/
def vcBeforeCol (c : Col) : List (String × ℕ)
  := match c with
  | .obj cells => valueCountsTop 10 ((cells.map stripCell).map astypeStrCell)
  | .num cells => valueCountsTop 10 (cells.map numCellStr)
  | .dt cells => valueCountsTop 10 (cells.map dtCellStr)

/-- `value_counts(dropna=False).head(10)` of a cleaned column. -/
def vcAfterCol (c : Col) : List (String × ℕ)
  := match c with
  | .obj cells => valueCountsTop 10 (cells.map astypeStrCell)
  | .num cells => valueCountsTop 10 (cells.map numCellStr)
  | .dt cells => valueCountsTop 10 (cells.map dtCellStr)

/-- The numeric view of a column used by `capture_before_snapshot`
(`pd.to_numeric(df[col], errors="coerce") if dtype == object else df[col]`). -/
def numSeriesOf (L : Lib) : Col → List (Option ℚ)
  | .obj cells => coerceCol L cells
  | .num cells => cells
  | .dt _ => []

/-- The string series whose mode `capture_before_snapshot` takes for a
Categorical column (`df[col].str.strip()` for object columns — whose
missing values the mode then drops — otherwise `astype(str)`). -/
def strSeriesForMode : Col → List String
  | .obj cells => ((cells.map stripCell).filterMap id).map pyObjStr
  | .num cells => cells.map numCellStr
  | .dt cells => cells.map dtCellStr

/-- Strategy string constant of `capture_before_snapshot`. -/
def sNoActionNeeded : String := "No Action Needed"

/-- Method string constant of `handle_missing_values`. -/
def sNoMissing : String := "No Missing"

/-- Strategy string constant of `capture_before_snapshot`. -/
def sMeanNaNCannot : String := "Mean is NaN — cannot fill"

/-- Strategy string constant of `capture_before_snapshot`. -/
def sNoModeCannot : String := "No mode found — cannot fill"

/-- Method string constant of `handle_missing_values`. -/
def sMeanNaNLeft : String := "Mean is NaN — Left Empty"

/-- Method string constant of `handle_missing_values`. -/
def sNoModeLeft : String := "No Mode Found — Left Empty"

/-- Fragment of the `Will fill ... missing with ...` strategy strings. -/
def sWillFillA : String := "Will fill "

/-- Fragment of the mean fill strategy string. -/
def sWillFillMeanB : String := " missing with Mean = "

/-- Fragment of the mode fill strategy string (opens the quoted value). -/
def sWillFillModeB : String := " missing with Mode = \x27"

/-- Closing quote of the mode fill strategy string. -/
def sQuoteClose : String := "\x27"

/-- Fragment of the `Filled with Mean (...)` method string. -/
def sFilledMeanA : String := "Filled with Mean ("

/-- Fragment of the `Filled with Mean (...)` method string. -/
def sFilledMeanB : String := ")"

/-- Fragment of the `Filled with Mode ('...')` method string. -/
def sFilledModeA : String := "Filled with Mode (\x27"

/-- Fragment of the `Filled with Mode ('...')` method string. -/
def sFilledModeB : String := "\x27)"

/-- `f"Filled with Mean ({round(float(mean_val), 4)})"`. -/
def methodFilledMean (m : ℚ) : String := sFilledMeanA ++ toString (round4 m) ++ sFilledMeanB

/-- `f"Filled with Mode ('{mode_value}')"`. -/
def methodFilledMode (m : String) : String := sFilledModeA ++ m ++ sFilledModeB

/-- `f"Will fill {missing_count} missing with Mean = {fill_value}"`. -/
def strategyWillFillMean (mc : ℕ) (v : ℚ) : String :=
  sWillFillA ++ toString mc ++ sWillFillMeanB ++ toString v

/-- `f"Will fill {missing_count} missing with Mode = '{fill_value}'"`. -/
def strategyWillFillMode (mc : ℕ) (v : String) : String :=
  sWillFillA ++ toString mc ++ sWillFillModeB ++ v ++ sQuoteClose

/-- One entry of the before snapshot of `capture_before_snapshot`
(lines 101-154). -/
structure Snap where
  col_type : String
  missing_count : ℕ
  missing_pct : ℚ
  fill_value : Option String
  fill_strategy : String
  total_rows : ℕ
  vc_before : List (String × ℕ)
  deriving DecidableEq

/-- `capture_before_snapshot` for one column: records the missing count,
the category, the fill value that *will* be used (mean for Numeric
columns, mode for Categorical ones, only when something is missing and
the fill value is determinable) and the top-10 value distribution. -/
def snapCol (L : Lib) (total_rows : ℕ) (c : Col) : Snap :=
  let missing_count := c.missingCount
  let cat := get_col_category L total_rows c
  let fv_fs : Option String × String :=
    if cat = sNumeric then
      if 0 < missing_count then
        if ((numSeriesOf L c).filterMap id).length ≠ 0 then
          (some (toString (round4 (qMean ((numSeriesOf L c).filterMap id)))),
           strategyWillFillMean missing_count (round4 (qMean ((numSeriesOf L c).filterMap id))))
        else (none, sMeanNaNCannot)
      else (none, sNoActionNeeded)
    else
      if 0 < missing_count then
        match modeHead (strSeriesForMode c) with
        | some m => (some m, strategyWillFillMode missing_count m)
        | none => (none, sNoModeCannot)
      else (none, sNoActionNeeded)
  { col_type := cat, missing_count := missing_count,
    missing_pct := if 0 < total_rows then round2 ((missing_count : ℚ) * 100 / total_rows) else 0,
    fill_value := fv_fs.1, fill_strategy := fv_fs.2,
    total_rows := total_rows, vc_before := vcBeforeCol c }

/-- `capture_before_snapshot` (lines 101-154) over the whole frame. -/
def capture_before_snapshot (L : Lib) (df : DataFrame) : List (String × Snap) :=
  df.cols.map (fun nc => (nc.1, snapCol L df.nrows nc.2))

/-- The pre-fill normalisation step of `handle_missing_values`
(lines 175-178 and 197): an object column strictly more than 60% of
whose cells coerce becomes numeric — its non-coercible cells turning
into NaN — and any other object column is whitespace-stripped — its
non-string cells turning into NaN; numeric and datetime columns are
untouched. -/
def normalizeCol (L : Lib) (n : ℕ) : Col → Col
  | .obj cells =>
      if 3 * n < 5 * coerceHits L cells then .num (coerceCol L cells)
      else .obj (cells.map stripCell)
  | c => c

/-- The fill phase of `handle_missing_values`, applied to the normalised
column; `missing_before` is the missing count captured before
normalisation, and gates the fill exactly as in the source. Numeric
columns are mean-filled when the mean is not NaN; object columns are
mode-filled when a mode exists; datetime columns fall through both
dtype tests and keep the initial `"No Missing"` method string. -/
def fillCol (missing_before : ℕ) : Col → Col × String
  | .num cells =>
      if 0 < missing_before then
        if (cells.filterMap id).length ≠ 0 then
          (.num (cells.map (fun x => some (x.getD (qMean (cells.filterMap id))))),
           methodFilledMean (qMean (cells.filterMap id)))
        else (.num cells, sMeanNaNLeft)
      else (.num cells, sNoMissing)
  | .obj cells =>
      if 0 < missing_before then
        match modeHead ((cells.filterMap id).map pyObjStr) with
        | some m => (.obj (cells.map (fun x => some (x.getD (PyObj.ostr m)))), methodFilledMode m)
        | none => (.obj cells, sNoModeLeft)
      else (.obj cells, sNoMissing)
  | .dt cells => (.dt cells, sNoMissing)

/-- Result of cleaning one column. -/
structure CleanRes where
  col : Col
  missing_before : ℕ
  missing_after : ℕ
  method : String
  deriving DecidableEq

/-- `handle_missing_values` for one column: capture `missing_before`,
normalise (numeric coercion / stripping), fill, capture `missing_after`. -/
def cleanColumn (L : Lib) (n : ℕ) (c : Col) : CleanRes :=
  let missing_before := c.missingCount
  let fr := fillCol missing_before (normalizeCol L n c)
  { col := fr.1, missing_before := missing_before,
    missing_after := fr.1.missingCount, method := fr.2 }

/-- One entry of the handling report of `handle_missing_values`
(lines 219-229). -/
structure HandleInfo where
  missing_before : ℕ
  missing_after : ℕ
  method : String
  col_type : String
  fill_value : Option String
  fill_strategy : String
  missing_pct : ℚ
  vc_before : List (String × ℕ)
  vc_after : List (String × ℕ)
  deriving DecidableEq

/-- `handle_missing_values` (lines 163-231): captures the before
snapshot, cleans every column independently, and returns the cleaned
frame, the handling report and the snapshot. -/
def handle_missing_values (L : Lib) (df : DataFrame) :
    DataFrame × List (String × HandleInfo) × List (String × Snap) :=
  (⟨df.nrows, df.cols.map (fun nc => (nc.1, (cleanColumn L df.nrows nc.2).col))⟩,
   df.cols.map (fun nc =>
     let snap := snapCol L df.nrows nc.2
     let r := cleanColumn L df.nrows nc.2
     (nc.1,
      { missing_before := r.missing_before, missing_after := r.missing_after,
        method := r.method, col_type := snap.col_type,
        fill_value := snap.fill_value, fill_strategy := snap.fill_strategy,
        missing_pct := snap.missing_pct, vc_before := snap.vc_before,
        vc_after := vcAfterCol r.col })),
   capture_before_snapshot L df)

/-- `Series.quantile(q)` with pandas' default linear interpolation
between order statistics: with sorted values `s` of length `m`, position
`h = q*(m-1)`, the result is `s[i] + (h-i)*(s[i+1]-s[i])` for `i = ⌊h⌋`
(for `q ∈ [0,1]` the fractional part is zero whenever `i+1` would fall
out of range, so the out-of-range default never matters). -/
def quantileQ (vals : List ℚ) (q : ℚ) : ℚ :=
  let s := List.insertionSort (fun a b : ℚ => a ≤ b) vals
  let h : ℚ := q * ((s.length : ℚ) - 1)
  s.getD (⌊h⌋).toNat 0 + (h - ⌊h⌋) * (s.getD ((⌊h⌋).toNat + 1) 0 - s.getD (⌊h⌋).toNat 0)

/-- One outlier record of `detect_outliers` (lines 249-256), fields
rounded to 4 decimal places exactly as reported. -/
structure OutRec where
  outliers_count : ℕ
  lower_bound : ℚ
  upper_bound : ℚ
  q1 : ℚ
  q3 : ℚ
  iqr : ℚ
  deriving DecidableEq

/-- The IQR computation of `detect_outliers` on the non-missing values
of one column: quartiles by linear interpolation, `IQR = Q3 - Q1`,
bounds `Q1 - 1.5*IQR` and `Q3 + 1.5*IQR`, count of values strictly
outside the bounds; every reported field is `round(x, 4)`. -/
def outlierRec (vals : List ℚ) : OutRec :=
  let Q1 := quantileQ vals (1/4)
  let Q3 := quantileQ vals (3/4)
  let IQR := Q3 - Q1
  let lower := Q1 - 3/2 * IQR
  let upper := Q3 + 3/2 * IQR
  { outliers_count := vals.countP (fun v => decide (v < lower ∨ upper < v)),
    lower_bound := round4 lower, upper_bound := round4 upper,
    q1 := round4 Q1, q3 := round4 Q3, iqr := round4 IQR }

/-- `detect_outliers` (lines 237-257): a numeric column contributes a
record only when it has at least 4 non-missing values; shorter columns
are skipped entirely (`continue`). -/
def detect_outliers (cols : List (String × List (Option ℚ))) : List (String × OutRec) :=
  cols.filterMap (fun nc =>
    if (nc.2.filterMap id).length < 4 then none
    else some (nc.1, outlierRec (nc.2.filterMap id)))

/-- `round(x, 4)` lifted to float values (NaN/Inf round to themselves). -/
def round4F : FV → FV
  | .fin q => .fin (round4 q)
  | f => f

/-- `Series.mean()` as a float: NaN on an empty (all-missing) column. -/
def meanFV (vals : List ℚ) : FV :=
  if vals.length = 0 then .nan else .fin (qMean vals)

/-- A quantile as a float: NaN on an empty column. -/
def quantFV (vals : List ℚ) (q : ℚ) : FV :=
  if vals.length = 0 then .nan else .fin (quantileQ vals q)

/-- `Series.min()` as a float: NaN on an empty column. -/
def minFV (vals : List ℚ) : FV :=
  match vals.min? with
  | some v => .fin v
  | none => .nan

/-- `Series.max()` as a float: NaN on an empty column. -/
def maxFV (vals : List ℚ) : FV :=
  match vals.max? with
  | some v => .fin v
  | none => .nan

/-- One row of `statistical_summary` (lines 270-280). -/
structure StatRec where
  mean : FV
  median : FV
  std : FV
  min : FV
  max : FV
  p25 : FV
  p75 : FV
  skewness : FV
  kurtosis : FV
  deriving DecidableEq

/-- The statistics of one numeric column: mean/median/min/max/quartiles
computed exactly, std/skewness/kurtosis taken from the library oracle,
all rounded to 4 places (`describe` and the per-column accessors all
skip missing values). -/
def statRecOf (L : Lib) (cells : List (Option ℚ)) : StatRec :=
  { mean := round4F (meanFV (cells.filterMap id)),
    median := round4F (quantFV (cells.filterMap id) (1/2)),
    std := round4F (L.stdF (cells.filterMap id)),
    min := round4F (minFV (cells.filterMap id)),
    max := round4F (maxFV (cells.filterMap id)),
    p25 := round4F (quantFV (cells.filterMap id) (1/4)),
    p75 := round4F (quantFV (cells.filterMap id) (3/4)),
    skewness := round4F (L.skewF (cells.filterMap id)),
    kurtosis := round4F (L.kurtF (cells.filterMap id)) }

/-- `statistical_summary` (lines 263-283); on an empty column list the
result is empty, and the per-column `try/except` never fires in this
model because every record is total. -/
def statistical_summary (L : Lib) (cols : List (String × List (Option ℚ))) :
    List (String × StatRec) :=
  cols.map (fun nc => (nc.1, statRecOf L nc.2))

/-- The histogram range of `np.histogram(values, bins=20)`: `[min, max]`
of the values, widened to `[min - 0.5, max + 0.5]` by NumPy when all
values are equal (first_edge == last_edge). -/
def histRange (vals : List ℚ) : ℚ × ℚ :=
  let lo := (vals.min?).getD 0
  let hi := (vals.max?).getD 0
  if lo = hi then (lo - 1/2, hi + 1/2) else (lo, hi)

/-- The bin a value lands in: 20 equal-width half-open bins with the last
bin closed, i.e. `min 19 ⌊(x - lo) * 20 / (hi - lo)⌋`. -/
def binIdx (lo hi : ℚ) (x : ℚ) : ℕ := min 19 (⌊(x - lo) * 20 / (hi - lo)⌋).toNat

/-- The 20 left bin edges emitted as `bins[:-1].tolist()`. -/
def histEdges (vals : List ℚ) : List ℚ :=
  (List.range 20).map
    (fun i : ℕ => (histRange vals).1 + (i : ℚ) * ((histRange vals).2 - (histRange vals).1) / 20)

/-- The 20 bin counts of `np.histogram(values, bins=20)`. -/
def histCounts (vals : List ℚ) : List ℕ :=
  (List.range 20).map
    (fun i => vals.countP (fun x => binIdx (histRange vals).1 (histRange vals).2 x == i))

/-- The pairwise-complete observations pandas `corr` uses for a pair of
columns: rows where both cells are present. -/
def pairRows (x y : List (Option ℚ)) : List (ℚ × ℚ) :=
  (x.zip y).filterMap (fun p => p.1.bind (fun a => p.2.map (fun b => (a, b))))

/-- Centered sum of squares `Σ (a - mean)²` of a list. -/
def sqSum (l : List ℚ) : ℚ := (l.map (fun a => (a - qMean l) ^ 2)).sum

/-- Centered cross sum `Σ (a - mean_x)(b - mean_y)` over paired rows. -/
def covSum (ps : List (ℚ × ℚ)) : ℚ :=
  (ps.map (fun p => (p.1 - qMean (ps.map Prod.fst)) * (p.2 - qMean (ps.map Prod.snd)))).sum

/-- Pearson correlation of two columns over their pairwise-complete
rows, in exact real arithmetic: `none` models the NaN that float
division produces when either centered sum of squares vanishes
(constant column, or fewer than 2 complete rows). -/
noncomputable def pearson (x y : List (Option ℚ)) : Option ℝ :=
  if sqSum ((pairRows x y).map Prod.fst) = 0 ∨ sqSum ((pairRows x y).map Prod.snd) = 0
  then none
  else some ((covSum (pairRows x y) : ℝ) /
    Real.sqrt ((sqSum ((pairRows x y).map Prod.fst) : ℝ) *
      (sqSum ((pairRows x y).map Prod.snd) : ℝ)))

/-- One entry of `numeric_df.corr().fillna(0)`: the NaN of an undefined
correlation is replaced by 0. -/
noncomputable def corrEntry (x y : List (Option ℚ)) : ℝ := (pearson x y).getD 0

/-- The correlation step of `perform_eda` (lines 467-470) in exact real
arithmetic: an empty mapping when fewer than 2 numeric columns exist,
otherwise the full dense nested mapping `{col_i: {col_j: corr}}`. -/
noncomputable def corrMatrixR (cols : List (String × List (Option ℚ))) :
    List (String × List (String × ℝ)) :=
  if cols.length < 2 then []
  else cols.map (fun a => (a.1, cols.map (fun b => (b.1, corrEntry a.2 b.2))))

/-- Step 6 of `perform_eda` (lines 454-456) for one categorical column:
`df[col].astype(str).value_counts().head(50).to_dict()`. Every cell is
first rendered as a string — a missing cell becomes the string `nan` —
and the rendered strings are counted. -/
def value_counts_step (cells : List (Option PyObj)) : List (String × ℕ) :=
  valueCountsTop 50 (cells.map astypeStrCell)

/-- `df.select_dtypes(include=np.number)` with data. -/
def numericCols (df : DataFrame) : List (String × List (Option ℚ)) :=
  df.cols.filterMap (fun nc => match nc.2 with
    | .num cells => some (nc.1, cells)
    | _ => none)

/-- `df.select_dtypes(include="object")` with data. -/
def objectCols (df : DataFrame) : List (String × List (Option PyObj)) :=
  df.cols.filterMap (fun nc => match nc.2 with
    | .obj cells => some (nc.1, cells)
    | _ => none)

/-- `df.select_dtypes(include="datetime")` with data. -/
def datetimeCols (df : DataFrame) : List (String × List (Option ℤ)) :=
  df.cols.filterMap (fun nc => match nc.2 with
    | .dt cells => some (nc.1, cells)
    | _ => none)

/-- A cell value tagged with its column dtype, used for row-wise
equality in `df.duplicated()` (pandas treats two missing cells as
equal there, as `none = none` does here). -/
inductive CellV where
  | cnum (c : Option ℚ) : CellV
  | cobj (c : Option PyObj) : CellV
  | cdt (c : Option ℤ) : CellV
  deriving DecidableEq

/-- The cell of a column at row index `i`. -/
def Col.cellAt : Col → ℕ → CellV
  | .num cells, i => .cnum (cells.getD i none)
  | .obj cells, i => .cobj (cells.getD i none)
  | .dt cells, i => .cdt (cells.getD i none)

/-- Row `i` of the frame, across all columns. -/
def rowAt (df : DataFrame) (i : ℕ) : List CellV :=
  df.cols.map (fun nc => nc.2.cellAt i)

/-- `int(df.duplicated().sum())`: the number of rows that are an exact
repeat of an earlier row. -/
def dupCount (df : DataFrame) : ℕ :=
  (List.range df.nrows).countP
    (fun i => (List.range i).any (fun j => decide (rowAt df j = rowAt df i)))

/-- `Series.nunique()`: distinct non-missing values. -/
def Col.nunique : Col → ℕ
  | .num cells => (firstSeen [] (cells.filterMap id)).length
  | .obj cells => (firstSeen [] (cells.filterMap id)).length
  | .dt cells => (firstSeen [] (cells.filterMap id)).length

/-- Render one cell for the `head(10).to_dict(orient="records")` preview
(timestamps are shown as strings here; no theorem depends on it). -/
def cellPy : CellV → PyVal
  | .cnum (some q) => .pFloat (.fin q)
  | .cnum none => .pFloat .nan
  | .cobj (some (.ostr s)) => .pStr s
  | .cobj (some (.onum q)) => .pFloat (.fin q)
  | .cobj none => .pFloat .nan
  | .cdt (some t) => .pStr (toString t)
  | .cdt none => .pStr sNaTStr

/-- The human-readable names of `fmt_map` in `generate_insights`
(lines 353-364). -/
def fmtHumanMap : List (String × String) :=
  [("%Y-%m-%d", "ISO 8601 (YYYY-MM-DD) — International"),
   ("%d/%m/%Y", "DMY (DD/MM/YYYY) — India/UK/Australia"),
   ("%m/%d/%Y", "MDY (MM/DD/YYYY) — United States"),
   ("%d-%m-%Y", "DMY with hyphens (DD-MM-YYYY)"),
   ("%d.%m.%Y", "DMY with dots (DD.MM.YYYY)"),
   ("%d %b %Y", "Textual — 19 Feb 2025"),
   ("%d %B %Y", "Textual — 19 February 2025"),
   ("%B %d, %Y", "Textual — February 19, 2025"),
   ("%Y-%m-%dT%H:%M:%S", "ISO 8601 with Time"),
   ("auto-detected", "Auto-detected by pandas")]

/-- Empty string fragment (the `''` branch of the truncation suffix). -/
def sEmpty : String := ""

/-- Insight string fragment. -/
def s1a : String := "Dataset has "

/-- Insight string fragment. -/
def s1b : String := " rows and "

/-- Insight string fragment. -/
def s1c : String := " columns."

/-- Insight string fragment. -/
def s2a : String := " numeric column(s): "

/-- Insight string fragment. -/
def s2b : String := " categorical column(s): "

/-- Separator used both by `', '.join` and inside outlier bounds. -/
def sComma : String := ", "

/-- Truncation suffix for long column lists. -/
def sDots : String := "..."

/-- Sentence-final period. -/
def sDot : String := "."

/-- Insight string fragment. -/
def s3a : String := "Date column \x27"

/-- Insight string fragment. -/
def s3b : String := "\x27 detected — Format: "

/-- Default of `date_format_map.get(col, "unknown")`. -/
def sUnknown : String := "unknown"

/-- Insight line for the no-date case. -/
def s4none : String := "No date columns detected."

/-- Warning prefix fragment. -/
def s5a : String := "⚠ "

/-- Insight string fragment. -/
def s5b : String := " duplicate rows found ("

/-- Insight string fragment. -/
def s5c : String := "% of dataset)."

/-- Insight line for the no-duplicates case. -/
def s5none : String := "✔ No duplicate rows found."

/-- Insight string fragment. -/
def s6a : String := " column(s) had missing values. \x27"

/-- Insight string fragment. -/
def s6b : String := "\x27 had the most ("

/-- Insight string fragment. -/
def s6c : String := " missing). All filled automatically."

/-- Per-column missing detail fragment. -/
def s6line1 : String := "  → \x27"

/-- Per-column missing detail fragment. -/
def s6line2 : String := "\x27 ["

/-- Per-column missing detail fragment. -/
def s6line3 : String := "]: "

/-- Per-column missing detail fragment. -/
def s6line4 : String := " missing. "

/-- Insight line for the no-missing case. -/
def s6none : String := "✔ Dataset has no missing values — clean data!"

/-- Outlier insight fragment. -/
def s7a : String := "⚠ Outliers in \x27"

/-- Outlier insight fragment. -/
def s7b : String := "\x27: "

/-- Outlier insight fragment. -/
def s7c : String := " values outside ["

/-- Outlier insight fragment. -/
def s7d : String := "] (IQR method)."

/-- Skewness insight fragment. -/
def s8b : String := "\x27 is heavily skewed "

/-- Skew direction label. -/
def sRight : String := "right (positive)"

/-- Skew direction label. -/
def sLeft : String := "left (negative)"

/-- Skewness insight fragment. -/
def s8c : String := " (skew="

/-- Skewness insight fragment. -/
def s8d : String := ")."

/-- Cardinality insight fragment. -/
def s9b : String := "\x27 has very high cardinality ("

/-- Cardinality insight fragment. -/
def s9c : String := " unique values) — likely an ID column."

/-- Constant-column insight prefix. -/
def s10a : String := "⚠ \x27"

/-- Constant-column insight fragment. -/
def s10b : String := "\x27 has only 1 unique value — adds no information."

/-- Print form of a positive float infinity. -/
def sInf : String := "inf"

/-- Print form of a negative float infinity. -/
def sNInf : String := "-inf"

/-- The skewness insight for one numeric column, if any: emitted when
`abs(skew) > 1` (a NaN skew compares false and emits nothing; an
infinite skew compares true, as in float arithmetic). -/
def skewLine (L : Lib) (name : String) (vals : List ℚ) : Option String :=
  match L.skewF vals with
  | .fin q =>
      if 1 < |q| then
        some (sQuoteClose ++ name ++ s8b ++ (if 0 < q then sRight else sLeft)
          ++ s8c ++ toString (roundScale 2 q) ++ s8d)
      else none
  | .inf => some (sQuoteClose ++ name ++ s8b ++ sRight ++ s8c ++ sInf ++ s8d)
  | .ninf => some (sQuoteClose ++ name ++ s8b ++ sLeft ++ s8c ++ sNInf ++ s8d)
  | .nan => none

/-- `generate_insights` (lines 334-418), rule for rule and in order
(numeric formatting approximates Python's; no theorem inspects these
strings beyond their count and order of production). -/
def generate_insights (L : Lib) (df : DataFrame)
    (ncols : List (String × List (Option ℚ)))
    (ccols : List (String × List (Option PyObj)))
    (dcols : List (String × List (Option ℤ)))
    (handling : List (String × HandleInfo))
    (outliers : List (String × OutRec))
    (duplicates : ℕ)
    (fmt_map : List (String × String)) : List String :=
  [s1a ++ toString df.nrows ++ s1b ++ toString df.cols.length ++ s1c]
  ++ (if ncols.isEmpty then [] else
      [toString ncols.length ++ s2a
       ++ String.intercalate sComma ((ncols.map Prod.fst).take 5)
       ++ (if 5 < ncols.length then sDots else sEmpty) ++ sDot])
  ++ (if ccols.isEmpty then [] else
      [toString ccols.length ++ s2b
       ++ String.intercalate sComma ((ccols.map Prod.fst).take 5)
       ++ (if 5 < ccols.length then sDots else sEmpty) ++ sDot])
  ++ (if dcols.isEmpty then [s4none]
      else dcols.map (fun c =>
        s3a ++ c.1 ++ s3b
        ++ ((fmtHumanMap.lookup ((fmt_map.lookup c.1).getD sUnknown)).getD
            ((fmt_map.lookup c.1).getD sUnknown)) ++ sDot))
  ++ (if 0 < duplicates then
        [s5a ++ toString duplicates ++ s5b
         ++ toString (roundScale 1 ((duplicates : ℚ) * 100 / (df.nrows : ℚ))) ++ s5c]
      else [s5none])
  ++ (match handling.filter (fun p => 0 < p.2.missing_before) with
      | [] => [s6none]
      | w :: rest =>
        (s5a ++ toString (rest.length + 1) ++ s6a
         ++ (rest.foldl (fun acc p =>
              if acc.2.missing_before < p.2.missing_before then p else acc) w).1
         ++ s6b
         ++ toString (rest.foldl (fun acc p =>
              if acc.2.missing_before < p.2.missing_before then p else acc) w).2.missing_before
         ++ s6c)
        :: (w :: rest).map (fun p =>
             s6line1 ++ p.1 ++ s6line2 ++ p.2.col_type ++ s6line3
             ++ toString p.2.missing_before ++ s6line4 ++ p.2.method ++ sDot))
  ++ outliers.filterMap (fun p =>
      if 0 < p.2.outliers_count then
        some (s7a ++ p.1 ++ s7b ++ toString p.2.outliers_count ++ s7c
          ++ toString p.2.lower_bound ++ sComma ++ toString p.2.upper_bound ++ s7d)
      else none)
  ++ ncols.filterMap (fun p => skewLine L p.1 (p.2.filterMap id))
  ++ ccols.filterMap (fun p =>
      if 4 * df.nrows < 5 * (firstSeen [] (p.2.filterMap id)).length then
        some (sQuoteClose ++ p.1 ++ s9b
          ++ toString (firstSeen [] (p.2.filterMap id)).length ++ s9c)
      else none)
  ++ df.cols.filterMap (fun nc =>
      if nc.2.nunique = 1 then some (s10a ++ nc.1 ++ s10b) else none)

/-- Build a `PyList` from a Lean list. -/
def toPyList : List PyVal → PyList
  | [] => .nil
  | x :: xs => .cons x (toPyList xs)

/-- Build a `PyDict` from a Lean association list. -/
def toPyDict : List (String × PyVal) → PyDict
  | [] => .nil
  | kv :: rest => .cons kv.1 kv.2 (toPyDict rest)

/-- Render a value-count table as a dict of integer counts. -/
def vcPy (vc : List (String × ℕ)) : PyVal :=
  .pDict (toPyDict (vc.map (fun p => (p.1, PyVal.pInt (p.2 : ℤ)))))

/-- Render an optional string (`None` when absent). -/
def optStrPy : Option String → PyVal
  | some s => .pStr s
  | none => .pNone

/-- Render a list of strings. -/
def strListPy (l : List String) : PyVal :=
  .pList (toPyList (l.map (fun s => PyVal.pStr s)))

/-- Render one statistics record with the report's keys. -/
def statPy (r : StatRec) : PyVal :=
  .pDict (toPyDict
    [("mean", .pFloat r.mean), ("median", .pFloat r.median), ("std", .pFloat r.std),
     ("min", .pFloat r.min), ("max", .pFloat r.max),
     ("25%", .pFloat r.p25), ("75%", .pFloat r.p75),
     ("skewness", .pFloat r.skewness), ("kurtosis", .pFloat r.kurtosis)])

/-- Render one outlier record with the report's keys. -/
def outPy (r : OutRec) : PyVal :=
  .pDict (toPyDict
    [("outliers_count", .pInt (r.outliers_count : ℤ)),
     ("lower_bound", .pFloat (.fin r.lower_bound)),
     ("upper_bound", .pFloat (.fin r.upper_bound)),
     ("Q1", .pFloat (.fin r.q1)), ("Q3", .pFloat (.fin r.q3)),
     ("IQR", .pFloat (.fin r.iqr))])

/-- Render one handling-report entry with the report's keys. -/
def handleInfoPy (h : HandleInfo) : PyVal :=
  .pDict (toPyDict
    [("missing_before", .pInt (h.missing_before : ℤ)),
     ("missing_after", .pInt (h.missing_after : ℤ)),
     ("method", .pStr h.method), ("col_type", .pStr h.col_type),
     ("fill_value", optStrPy h.fill_value), ("fill_strategy", .pStr h.fill_strategy),
     ("missing_pct", .pFloat (.fin h.missing_pct)),
     ("vc_before", vcPy h.vc_before), ("vc_after", vcPy h.vc_after)])

/-- Status string of `build_before_after_table`. -/
def sStatusNoMissing : String := "✔ No Missing"

/-- Status string of `build_before_after_table`. -/
def sStatusFixed : String := "✔ Fixed"

/-- Status string of `build_before_after_table`. -/
def sStatusPartial : String := "⚠ Partial"

/-- `build_before_after_table` (lines 290-328): one record per column
with the full before and after picture. -/
def build_before_after_table (rows : ℕ) (handling : List (String × HandleInfo)) :
    List PyVal :=
  handling.map (fun p => .pDict (toPyDict
    [("column", .pStr p.1), ("col_type", .pStr p.2.col_type),
     ("total_rows", .pInt (rows : ℤ)),
     ("missing_before", .pInt (p.2.missing_before : ℤ)),
     ("missing_pct", .pFloat (.fin p.2.missing_pct)),
     ("fill_strategy", .pStr p.2.fill_strategy),
     ("fill_value", optStrPy p.2.fill_value),
     ("vc_before", vcPy p.2.vc_before),
     ("method_applied", .pStr p.2.method),
     ("missing_after", .pInt (p.2.missing_after : ℤ)),
     ("vc_after", vcPy p.2.vc_after),
     ("status", .pStr (if p.2.missing_before = 0 then sStatusNoMissing
                       else if p.2.missing_after = 0 then sStatusFixed
                       else sStatusPartial))]))

/-- `fillna(0)` on a float: only NaN is replaced. -/
def fillna0F : FV → FV
  | .nan => .fin 0
  | f => f

/-- Step 7 of `perform_eda` (lines 459-464): a histogram per numeric
column with at least one non-missing value. -/
def histograms_step (ncols : List (String × List (Option ℚ))) : List (String × PyVal) :=
  ncols.filterMap (fun nc =>
    if 0 < (nc.2.filterMap id).length then
      some (nc.1, PyVal.pDict (toPyDict
        [("bins", .pList (toPyList
           ((histEdges (nc.2.filterMap id)).map (fun q => PyVal.pFloat (.fin q))))),
         ("counts", .pList (toPyList
           ((histCounts (nc.2.filterMap id)).map (fun n => PyVal.pInt (n : ℤ)))))]))
    else none)

/-- Step 8 of `perform_eda` (lines 467-470) at the report level: the
float correlation entries come from the library oracle, with NaN
filled by 0; empty when fewer than 2 numeric columns exist. The exact
arithmetic semantics of the same computation is `corrMatrixR`. -/
def correlation_step (L : Lib) (ncols : List (String × List (Option ℚ))) :
    List (String × PyVal) :=
  if ncols.length < 2 then []
  else ncols.map (fun a => (a.1, PyVal.pDict (toPyDict
    (ncols.map (fun b => (b.1, PyVal.pFloat (fillna0F (L.corrF a.2 b.2))))))))

/-- Step 10 of `perform_eda`: `df.head(10).to_dict(orient="records")`. -/
def preview_step (df : DataFrame) : List PyVal :=
  (List.range (min 10 df.nrows)).map
    (fun i => PyVal.pDict (toPyDict (df.cols.map (fun nc => (nc.1, cellPy (nc.2.cellAt i))))))

/-- `perform_eda` (lines 424-526): shape captured up front, `nunique` on
the raw frame, then date detection, missing-value handling, dtype-based
column classification, statistics, outliers, value counts, histograms,
correlation, duplicates, preview, insights, the before/after table, and
finally `clean_json` over the assembled result dict. The dict literal
always has the same twelve keys — there is no empty-dataset branch. -/
def perform_eda (L : Lib) (df0 : DataFrame) : PyVal :=
  clean_json (.pDict (toPyDict
    [("overview", .pDict (toPyDict
       [("rows", .pInt (df0.nrows : ℤ)),
        ("columns", .pInt (df0.cols.length : ℤ)),
        ("numeric_columns",
         strListPy ((numericCols (handle_missing_values L (try_parse_dates L df0).1).1).map Prod.fst)),
        ("categorical_columns",
         strListPy ((objectCols (handle_missing_values L (try_parse_dates L df0).1).1).map Prod.fst)),
        ("datetime_columns",
         strListPy ((datetimeCols (handle_missing_values L (try_parse_dates L df0).1).1).map Prod.fst)),
        ("date_formats", .pDict (toPyDict
          ((try_parse_dates L df0).2.2.map (fun q => (q.1, PyVal.pStr q.2)))))])),
     ("dataset_info", .pStr (L.infoStr df0.nrows df0.cols.length)),
     ("nunique", .pDict (toPyDict
        (df0.cols.map (fun nc => (nc.1, PyVal.pInt (nc.2.nunique : ℤ)))))),
     ("missing_handling_process", .pDict (toPyDict
        ((handle_missing_values L (try_parse_dates L df0).1).2.1.map
          (fun q => (q.1, handleInfoPy q.2))))),
     ("before_after_missing", .pList (toPyList
        (build_before_after_table df0.nrows
          (handle_missing_values L (try_parse_dates L df0).1).2.1))),
     ("data_quality", .pDict (toPyDict
        [("duplicates", .pInt ((dupCount (handle_missing_values L (try_parse_dates L df0).1).1 : ℕ) : ℤ)),
         ("outliers", .pDict (toPyDict
           ((detect_outliers (numericCols (handle_missing_values L (try_parse_dates L df0).1).1)).map
             (fun q => (q.1, outPy q.2)))))])),
     ("statistics", .pDict (toPyDict
        ((statistical_summary L (numericCols (handle_missing_values L (try_parse_dates L df0).1).1)).map
          (fun q => (q.1, statPy q.2))))),
     ("value_counts", .pDict (toPyDict
        ((objectCols (handle_missing_values L (try_parse_dates L df0).1).1).map
          (fun q => (q.1, vcPy (value_counts_step q.2)))))),
     ("preview", .pList (toPyList
        (preview_step (handle_missing_values L (try_parse_dates L df0).1).1))),
     ("visualization", .pDict (toPyDict
        [("histograms", .pDict (toPyDict
           (histograms_step (numericCols (handle_missing_values L (try_parse_dates L df0).1).1))))])),
     ("advanced_visualization", .pDict (toPyDict
        [("correlation", .pDict (toPyDict
           (correlation_step L (numericCols (handle_missing_values L (try_parse_dates L df0).1).1))))])),
     ("insights", strListPy
        (generate_insights L (handle_missing_values L (try_parse_dates L df0).1).1
          (numericCols (handle_missing_values L (try_parse_dates L df0).1).1)
          (objectCols (handle_missing_values L (try_parse_dates L df0).1).1)
          (datetimeCols (handle_missing_values L (try_parse_dates L df0).1).1)
          (handle_missing_values L (try_parse_dates L df0).1).2.1
          (detect_outliers (numericCols (handle_missing_values L (try_parse_dates L df0).1).1))
          (dupCount (handle_missing_values L (try_parse_dates L df0).1).1)
          (try_parse_dates L df0).2.2))]))

theorem roundHE_ge_floor (x : ℚ) : ⌊x⌋ ≤ roundHE x := by
  unfold roundHE
  split_ifs <;> omega

theorem roundHE_le_floor_add_one (x : ℚ) : roundHE x ≤ ⌊x⌋ + 1 := by
  unfold roundHE
  split_ifs <;> omega

theorem roundHE_mono {x y : ℚ} (h : x ≤ y) : roundHE x ≤ roundHE y := by
  rcases lt_or_eq_of_le (Int.floor_mono h) with hf | hf
  · calc roundHE x ≤ ⌊x⌋ + 1 := roundHE_le_floor_add_one x
    _ ≤ ⌊y⌋ := by omega
    _ ≤ roundHE y := roundHE_ge_floor y
  · unfold roundHE
    rw [hf]
    split_ifs with h1 h2 h3 h4 h5 h6 h7 h8 h9 h10 h11 h12 <;>
      first
        | omega
        | (exfalso; rw [hf] at h1; linarith)
        | (exfalso; rw [hf] at *; linarith)

theorem roundHE_zero : roundHE 0 = 0 := by
  unfold roundHE
  norm_num

theorem roundScale_mono (k : ℕ) {x y : ℚ} (h : x ≤ y) : roundScale k x ≤ roundScale k y := by
  unfold roundScale
  have hp : (0 : ℚ) < (10 : ℚ) ^ k := by positivity
  have hm : x * (10 : ℚ) ^ k ≤ y * (10 : ℚ) ^ k :=
    mul_le_mul_of_nonneg_right h (le_of_lt hp)
  have hle : ((roundHE (x * (10:ℚ) ^ k) : ℤ) : ℚ) ≤ ((roundHE (y * (10:ℚ) ^ k) : ℤ) : ℚ) := by
    exact_mod_cast roundHE_mono hm
  exact div_le_div_of_nonneg_right hle hp.le

theorem roundScale_zero (k : ℕ) : roundScale k 0 = 0 := by
  unfold roundScale
  rw [zero_mul, roundHE_zero]
  simp

theorem round4_mono {x y : ℚ} (h : x ≤ y) : round4 x ≤ round4 y := roundScale_mono 4 h

theorem round4_nonneg {x : ℚ} (h : 0 ≤ x) : 0 ≤ round4 x := by
  have := roundScale_mono 4 h
  rwa [roundScale_zero] at this

theorem find?_first {α : Type} (p : α → Bool) :
    ∀ (l : List α) (a : α), l.find? p = some a →
      p a = true ∧ ∃ pre suf, l = pre ++ a :: suf ∧ ∀ b ∈ pre, p b = false := by
  intro l
  induction l with
  | nil => intro a h; simp [List.find?] at h
  | cons x xs ih =>
    intro a h
    by_cases hx : p x
    · rw [List.find?_cons_of_pos _ hx] at h
      cases h
      exact ⟨hx, [], xs, by simp⟩
    · rw [List.find?_cons_of_neg _ (by simpa using hx)] at h
      obtain ⟨hpa, pre, suf, heq, hpre⟩ := ih a h
      refine ⟨hpa, x :: pre, suf, by simp [heq], ?_⟩
      intro b hb
      rcases List.mem_cons.mp hb with rfl | hb
      · simpa using hx
      · exact hpre b hb

theorem nodup_keys_eq {α β : Type} {l : List (α × β)}
    (h : (l.map Prod.fst).Nodup) :
    ∀ p q, p ∈ l → q ∈ l → p.1 = q.1 → p = q := by
  induction l with
  | nil => intro p q hp; simp at hp
  | cons x xs ih =>
    intro p q hp hq hpq
    simp only [List.map_cons, List.nodup_cons] at h
    rcases List.mem_cons.mp hp with rfl | hp' <;> rcases List.mem_cons.mp hq with rfl | hq'
    · rfl
    · exact absurd (hpq ▸ List.mem_map_of_mem Prod.fst hq') h.1
    · exact absurd (hpq ▸ List.mem_map_of_mem Prod.fst hp') h.1
    · exact ih h.2 p q hp' hq' hpq

theorem PyDict.lookup_eq_none_of_not_mem {k : String} :
    ∀ (d : PyDict), k ∉ d.keys → d.lookup k = none
  | .nil, _ => rfl
  | .cons k' v tl, h => by
    simp only [PyDict.keys, List.mem_cons, not_or] at h
    unfold PyDict.lookup
    rw [if_neg (fun he : k' = k => h.1 he.symm)]
    exact PyDict.lookup_eq_none_of_not_mem tl h.2

theorem sum_map_add {α : Type} (l : List α) (f g : α → ℕ) :
    (l.map (fun i => f i + g i)).sum = (l.map f).sum + (l.map g).sum := by
  induction l with
  | nil => rfl
  | cons x xs ih => simp [ih]; omega

theorem sum_indicator (k j : ℕ) (h : j < k) :
    ((List.range k).map (fun i => if j == i then 1 else 0)).sum = 1 := by
  induction k with
  | zero => omega
  | succ k ih =>
    rw [List.range_succ, List.map_append, List.sum_append]
    by_cases hj : j < k
    · rw [ih hj]
      simp [Nat.ne_of_lt hj]
    · have hjk : j = k := by omega
      subst hjk
      have hz : ((List.range j).map (fun i => if j == i then 1 else 0)).sum = 0 := by
        apply List.sum_eq_zero
        intro x hx
        obtain ⟨i, hi, rfl⟩ := List.mem_map.mp hx
        have hij : i < j := List.mem_range.mp hi
        simp only [beq_iff_eq]
        rw [if_neg (by omega : ¬ j = i)]
      rw [hz]
      simp

theorem countP_partition (f : ℚ → ℕ) (k : ℕ) (l : List ℚ) (h : ∀ v ∈ l, f v < k) :
    ((List.range k).map (fun i => l.countP (fun x => f x == i))).sum = l.length := by
  induction l with
  | nil => simp
  | cons v l ih =>
    have hv : f v < k := h v (List.mem_cons_self v l)
    have hl : ∀ w ∈ l, f w < k := fun w hw => h w (List.mem_cons_of_mem v hw)
    have : ((List.range k).map (fun i => (v :: l).countP (fun x => f x == i))).sum
        = ((List.range k).map (fun i => l.countP (fun x => f x == i) + if f v == i then 1 else 0)).sum := by
      congr 1
      apply List.map_congr_left
      intro i _
      rw [List.countP_cons]
    rw [this, sum_map_add, ih hl, sum_indicator k (f v) hv, List.length_cons]

/-- A trivial library instantiation — nothing parses, nothing coerces,
every float statistic is NaN — used to instantiate oracle-generic
theorems at concrete inputs. -/
def LibZero : Lib :=
  { parseFmt := fun _ _ => none, parseGen := fun _ => none,
    toNumeric := fun _ => none, stdF := fun _ => .nan, skewF := fun _ => .nan,
    kurtF := fun _ => .nan, corrF := fun _ _ => .nan, infoStr := fun _ _ => sEmpty }

/-- A library fragment agreeing with pandas on the single literal ISO
date used below: only `%Y-%m-%d` parses only `2024-01-05`. -/
def LibIso : Lib :=
  { LibZero with
    parseFmt := fun fmt s =>
      if fmt = "%Y-%m-%d" ∧ s = "2024-01-05" then some 0 else none }

/-- A library where no catalog pattern parses anything but the generic
locale-agnostic parse succeeds on every string — as pandas behaves on
date strings outside the catalog, e.g. `2024-01-05 06:00` (no
seconds field, so every catalog pattern fails on it while the generic
parser reads it fine). -/
def LibGen : Lib := { LibZero with parseGen := fun _ => some 0 }

/-- A library whose numeric coercion parses the small integer literals
used below and nothing else, as `pd.to_numeric(..., errors="coerce")`
does. -/
def LibNum : Lib :=
  { LibZero with
    toNumeric := fun o => match o with
      | .onum q => some q
      | .ostr "1" => some 1
      | .ostr "2" => some 2
      | .ostr "3" => some 3
      | .ostr "4" => some 4
      | .ostr _ => none }

/-- Full-column success count of the generic locale-agnostic parse
(the `infer_datetime_format` fallback), for stating what the spec
expects of it. -/
def genHits (L : Lib) (cells : List (Option PyObj)) : ℕ :=
  cells.countP (fun c => match c with
    | some (.ostr s) => (L.parseGen s).isSome
    | _ => false)

/-- Modelled from the spec (§4.2 fallback acceptance; the source has no
reachable counterpart): a column is accepted heuristically when the
generic parse succeeds on strictly more than 60% of the full column. -/
def specHeuristicAccepts (L : Lib) (n : ℕ) (cells : List (Option PyObj)) : Prop :=
  3 * n < 5 * genHits L cells

/-- C3: the sanitizer is *not* idempotent and does *not* map every
non-finite real to null — the claim is right and the code is wrong. A
NumPy float that is not a Python float, such as `np.float32` NaN, is
converted with `float(obj)` and survives one pass as a float NaN (not
JSON-safe, contradicting the function's stated purpose); a second pass
then maps it to `None`, so `clean_json (clean_json x) ≠ clean_json x`. -/
theorem C3_clean_json_npfloat32_nan :
    clean_json (.pNpF32 .nan) = .pFloat .nan ∧
    clean_json (clean_json (.pNpF32 .nan)) = .pNone ∧
    clean_json (clean_json (.pNpF32 .nan)) ≠ clean_json (.pNpF32 .nan) := by
  refine ⟨rfl, rfl, ?_⟩
  decide

/-- C10: on a text column with zero non-missing values the detection
sample is empty, the 80% threshold `0 >= 0` holds vacuously for the
very first catalog pattern, and `detect_date_format` returns
`%Y-%m-%d`; yet with at least one row the full-column success count 0
never exceeds 60% of the rows, so `try_parse_dates` leaves the column
unchanged and unrecorded. -/
theorem C10_empty_sample_detection (L : Lib) (cells : List (Option PyObj)) (n : ℕ)
    (hall : ∀ c ∈ cells, c = none) (hn : 1 ≤ n) :
    detect_date_format L cells = some ("%Y-%m-%d") ∧
    tryParseCol L n (.obj cells) = (.obj cells, none) := by
  have hfm : cells.filterMap id = [] := by
    rw [List.filterMap_eq_nil]
    intro a ha
    rw [hall a ha]
    rfl
  have hsample : dateSample cells = [] := by
    unfold dateSample
    rw [hfm]
    rfl
  have hdet : detect_date_format L cells = some ("%Y-%m-%d") := by
    unfold detect_date_format DATE_FORMATS
    rw [hsample]
    rw [List.find?_cons_of_pos _ (by simp [sampleHits])]
  refine ⟨hdet, ?_⟩
  have hhits : fullHits L ("%Y-%m-%d") cells = 0 := by
    apply List.countP_eq_zero.mpr
    intro a ha
    rw [hall a ha]
    simp
  have hno : ¬ (3 * n < 5 * fullHits L ("%Y-%m-%d") cells) := by
    rw [hhits]
    omega
  simp [tryParseCol, hdet, hno]

/-- C10 witness: a two-row all-missing object column. -/
theorem C10_empty_sample_detection_witness :
    ((∀ c ∈ ([none, none] : List (Option PyObj)), c = none) ∧ (1:ℕ) ≤ 2) ∧
    (detect_date_format LibZero [none, none] = some ("%Y-%m-%d") ∧
     tryParseCol LibZero 2 (.obj [none, none]) = (.obj [none, none], none)) :=
  ⟨⟨by decide, by decide⟩,
   C10_empty_sample_detection LibZero [none, none] 2 (by decide) (by decide)⟩

/-- C4: whenever `detect_date_format` returns a format, that format is
a catalog pattern whose sample success count reaches 80% of the leading
sample of at most 50 non-missing values, every *earlier* catalog
pattern fails that threshold (it is the first match); and if the chosen
format's full-column success count does not exceed 60% of the row
count, the column is not converted and its cells remain unchanged. -/
theorem C4_date_detection_thresholds (L : Lib) (cells : List (Option PyObj)) (n : ℕ)
    (f : String) (hdet : detect_date_format L cells = some f) :
    (4 * (dateSample cells).length ≤ 5 * sampleHits L f (dateSample cells)
     ∧ ∃ pre suf, DATE_FORMATS = pre ++ f :: suf ∧
         ∀ g ∈ pre, 5 * sampleHits L g (dateSample cells) < 4 * (dateSample cells).length)
    ∧ (5 * fullHits L f cells ≤ 3 * n →
         tryParseCol L n (.obj cells) = (.obj cells, none)) := by
  obtain ⟨hp, pre, suf, heq, hpre⟩ := find?_first _ DATE_FORMATS f hdet
  constructor
  · refine ⟨by simpa using hp, pre, suf, heq, ?_⟩
    intro g hg
    have := hpre g hg
    simp only [decide_eq_false_iff_not, not_le] at this
    exact this
  · intro hle
    have hno : ¬ (3 * n < 5 * fullHits L f cells) := by omega
    simp [tryParseCol, hdet, hno]

/-- The column of the C4 witness: four parseable ISO dates, one junk
string, two missing cells, in a 7-row frame. -/
def cellsC4 : List (Option PyObj) :=
  [some (.ostr ("2024-01-05")), some (.ostr ("2024-01-05")),
   some (.ostr ("2024-01-05")), some (.ostr ("2024-01-05")),
   some (.ostr ("junk")), none, none]

/-- C4 witness: the sample threshold is met at exactly 80% (4 of 5) by
the first pattern, and the 60% full-column gate (4 of 7) rejects the
conversion, leaving the column unchanged. -/
theorem C4_date_detection_thresholds_witness :
    detect_date_format LibIso cellsC4 = some ("%Y-%m-%d")
    ∧ 4 * (dateSample cellsC4).length ≤ 5 * sampleHits LibIso ("%Y-%m-%d") (dateSample cellsC4)
    ∧ tryParseCol LibIso 7 (.obj cellsC4) = (.obj cellsC4, none) := by
  have hdet : detect_date_format LibIso cellsC4 = some ("%Y-%m-%d") := by decide
  exact ⟨hdet,
    (C4_date_detection_thresholds LibIso cellsC4 7 ("%Y-%m-%d") hdet).1.1,
    (C4_date_detection_thresholds LibIso cellsC4 7 ("%Y-%m-%d") hdet).2 (by decide)⟩

/-- The column of the C5 counterexample: three copies of a date string
with a time-of-day but no seconds — no catalog pattern matches it,
while pandas' generic parser reads it fine. -/
def cellsC5 : List (Option PyObj) :=
  [some (.ostr ("2024-01-05 06:00")), some (.ostr ("2024-01-05 06:00")),
   some (.ostr ("2024-01-05 06:00"))]

/-- C5 counterexample: no catalog pattern reaches the 80% sample
threshold, the generic parse would succeed on 100% (> 60%) of the full
column, yet the code makes no generic attempt — the column is left
unconverted and unrecorded, refuting the claim that the fallback is
tried and the column accepted. -/
theorem C5_counterexample :
    detect_date_format LibGen cellsC5 = none
    ∧ specHeuristicAccepts LibGen 3 cellsC5
    ∧ tryParseCol LibGen 3 (.obj cellsC5) = (.obj cellsC5, none) := by
  refine ⟨by decide, ?_, by decide⟩
  show 3 * 3 < 5 * genHits LibGen cellsC5
  decide

/-- C5 (amended): when no catalog pattern reaches the 80% sample
threshold, no parse attempt is made at all — the generic fallback lives
only in the exception handler of the full-column catalog parse, which
the coercing parse never triggers — and the column stays unchanged. -/
theorem C5_no_fallback_without_catalog_match (L : Lib) (n : ℕ)
    (cells : List (Option PyObj))
    (h : detect_date_format L cells = none) :
    tryParseCol L n (.obj cells) = (.obj cells, none) := by
  simp [tryParseCol, h]

/-- C5 witness for the amended statement. -/
theorem C5_no_fallback_witness :
    detect_date_format LibZero [some (.ostr ("abc"))] = none
    ∧ tryParseCol LibZero 1 (.obj [some (.ostr ("abc"))])
        = (.obj [some (.ostr ("abc"))], none) := by
  have h : detect_date_format LibZero [some (.ostr ("abc"))] = none := by decide
  exact ⟨h, C5_no_fallback_without_catalog_match LibZero 1 _ h⟩

/-- C9 (amended): the frequency table of Step 6 has at most 50 entries,
every entry maps a *stringified* cell value — missing cells included,
rendered as `nan` — to its bare occurrence count (there is no
percentage field), and entries are ordered by non-increasing count. -/
theorem C9_value_counts_shape (cells : List (Option PyObj)) :
    (value_counts_step cells).length ≤ 50
    ∧ (∀ p ∈ value_counts_step cells, p.2 = (cells.map astypeStrCell).count p.1)
    ∧ List.Pairwise (fun a b : String × ℕ => b.2 ≤ a.2) (value_counts_step cells) := by
  haveI hT : IsTotal (String × ℕ) (fun a b => b.2 ≤ a.2) := ⟨fun a b => le_total b.2 a.2⟩
  haveI hR : IsTrans (String × ℕ) (fun a b => b.2 ≤ a.2) := ⟨fun a b c h1 h2 => le_trans h2 h1⟩
  unfold value_counts_step valueCountsTop
  refine ⟨List.length_take_le _ _, ?_, ?_⟩
  · intro p hp
    have h1 : p ∈ countsFirstSeen (cells.map astypeStrCell) :=
      (List.perm_insertionSort _ _).mem_iff.mp (List.mem_of_mem_take hp)
    obtain ⟨v, hv, hpv⟩ := List.mem_map.mp h1
    rw [← hpv]
  · exact List.Pairwise.sublist (List.take_sublist _ _)
      (List.sorted_insertionSort (fun a b : String × ℕ => b.2 ≤ a.2) _)

/-- The column of the C9 counterexample: one string and two missing
cells. -/
def cellsC9 : List (Option PyObj) := [some (.ostr ("a")), none, none]

/-- C9 counterexample: the frequency table counts the two missing cells
under the key `nan` (missing is *not* excluded), and its entries are
bare integer counts — rendered as `pInt`, not as a record holding a
count and a percentage — refuting the claim as stated. -/
theorem C9_counterexample :
    value_counts_step cellsC9 = [((sNanStr), 2), (("a"), 1)]
    ∧ vcPy (value_counts_step cellsC9)
        = .pDict (.cons (sNanStr) (.pInt 2) (.cons ("a") (.pInt 1) .nil)) := by
  constructor
  · decide
  · decide

/-- C9 witness for the amended statement. -/
theorem C9_value_counts_shape_witness :
    (value_counts_step [some (.ostr ("b")), none]).length ≤ 50
    ∧ (1 : ℕ) = (([some (.ostr ("b")), none].map astypeStrCell).count ("b")) := by
  refine ⟨(C9_value_counts_shape _).1, ?_⟩
  have h := (C9_value_counts_shape [some (.ostr ("b")), none]).2.1 (("b"), 1) (by decide)
  simpa using h

/-- C7 (amended): for a numeric column with at least one non-missing
value the histogram emits exactly 20 left edges and 20 counts, the
counts sum to the number of values, and when `min < max` the edges are
the equal-width grid over `[min, max]`; when all values are equal the
range is widened to `[v - 0.5, v + 0.5]` (see the counterexample). -/
theorem C7_histogram_conservation (vals : List ℚ) (hne : vals ≠ []) :
    (histEdges vals).length = 20
    ∧ (histCounts vals).length = 20
    ∧ (histCounts vals).sum = vals.length
    ∧ (∀ lo hi, vals.min? = some lo → vals.max? = some hi → lo < hi →
        histEdges vals = (List.range 20).map (fun i : ℕ => lo + (i:ℚ) * (hi - lo) / 20)) := by
  refine ⟨by unfold histEdges; rw [List.length_map, List.length_range],
    by unfold histCounts; rw [List.length_map, List.length_range], ?_, ?_⟩
  · unfold histCounts
    exact countP_partition (fun x => binIdx (histRange vals).1 (histRange vals).2 x) 20 vals
      (fun v _ => Nat.lt_succ_of_le (min_le_left 19 _))
  · intro lo hi hlo hhi hlt
    unfold histEdges histRange
    rw [hlo, hhi]
    simp only [Option.getD_some]
    rw [if_neg (ne_of_lt hlt)]

theorem head?_map_eq {α β : Type} (f : α → β) (l : List α) :
    (l.map f).head? = l.head?.map f := by
  cases l <;> rfl

/-- C7 counterexample: a constant column. Its minimum is 5, but the
first histogram edge is 4.5 — NumPy widens the degenerate range to
`[min - 0.5, max + 0.5]` — so the bins do not span `[min, max]` as the
claim states. -/
theorem C7_counterexample :
    ([(5 : ℚ)].min?).getD 0 = 5
    ∧ (histEdges [(5 : ℚ)]).head? = some (9/2)
    ∧ ((9 : ℚ)/2) ≠ 5 := by
  have hr : histRange [(5 : ℚ)] = (9/2, 11/2) := by
    unfold histRange
    norm_num [List.min?, List.max?]
  refine ⟨by norm_num [List.min?], ?_, by norm_num⟩
  unfold histEdges
  rw [head?_map_eq, (by decide : (List.range 20).head? = some 0)]
  rw [hr]
  norm_num

/-- C7 witness for the amended statement. -/
theorem C7_histogram_conservation_witness :
    (histEdges [(1 : ℚ), 2]).length = 20
    ∧ (histCounts [(1 : ℚ), 2]).length = 20
    ∧ (histCounts [(1 : ℚ), 2]).sum = 2 := by
  obtain ⟨h1, h2, h3, _⟩ := C7_histogram_conservation [(1:ℚ), 2] (by simp)
  exact ⟨h1, h2, h3⟩

theorem normalizeCol_length (L : Lib) (n : ℕ) : ∀ c : Col, (normalizeCol L n c).length = c.length := by
  intro c
  cases c with
  | obj cells =>
    simp only [normalizeCol]
    by_cases h : 3 * n < 5 * coerceHits L cells
    · rw [if_pos h]; simp [Col.length, coerceCol]
    · rw [if_neg h]; simp [Col.length]
  | num cells => rfl
  | dt cells => rfl

theorem fillCol_length (mb : ℕ) : ∀ c : Col, ((fillCol mb c).1).length = c.length := by
  intro c
  cases c with
  | num cells =>
    simp only [fillCol]
    by_cases h1 : 0 < mb
    · by_cases h2 : (cells.filterMap id).length ≠ 0
      · simp only [if_pos h1, if_pos h2, Col.length, List.length_map]
      · simp only [if_pos h1, if_neg h2, Col.length]
    · simp only [if_neg h1, Col.length]
  | obj cells =>
    simp only [fillCol]
    by_cases h : 0 < mb
    · rw [if_pos h]
      rcases hm : modeHead ((cells.filterMap id).map pyObjStr) with _ | m <;>
        simp [Col.length]
    · rw [if_neg h]
  | dt cells => rfl

theorem cleanColumn_col_length (L : Lib) (n : ℕ) (c : Col) :
    (cleanColumn L n c).col.length = c.length := by
  unfold cleanColumn
  simp only
  rw [fillCol_length, normalizeCol_length]

theorem fillCol_missing (mb : ℕ) : ∀ c : Col,
    ((fillCol mb c).1).missingCount = 0 ∨ ((fillCol mb c).1).missingCount = c.missingCount := by
  intro c
  cases c with
  | num cells =>
    simp only [fillCol]
    by_cases h1 : 0 < mb
    · by_cases h2 : (cells.filterMap id).length ≠ 0
      · left
        simp only [if_pos h1, if_pos h2, Col.missingCount]
        apply List.countP_eq_zero.mpr
        intro a ha
        obtain ⟨x, hx, rfl⟩ := List.mem_map.mp ha
        simp
      · right
        simp only [if_pos h1, if_neg h2]
    · right
      simp only [if_neg h1]
  | obj cells =>
    simp only [fillCol]
    by_cases h : 0 < mb
    · rw [if_pos h]
      rcases hm : modeHead ((cells.filterMap id).map pyObjStr) with _ | m
      · right; rfl
      · left
        simp only [Col.missingCount]
        apply List.countP_eq_zero.mpr
        intro a ha
        obtain ⟨x, hx, rfl⟩ := List.mem_map.mp ha
        simp
    · rw [if_neg h]
      right; rfl
  | dt cells => right; rfl

theorem cleanColumn_conserve (L : Lib) (n : ℕ) (c : Col)
    (h : (normalizeCol L n c).missingCount = c.missingCount) :
    (cleanColumn L n c).missing_after ≤ (cleanColumn L n c).missing_before := by
  unfold cleanColumn
  simp only
  rcases fillCol_missing c.missingCount (normalizeCol L n c) with h0 | he
  · rw [h0]; exact Nat.zero_le _
  · rw [he, h]

/-- C2 (amended): `handle_missing_values` never changes the row count,
the column names or any column's cell count; and for every column whose
pre-fill normalisation (numeric coercion of mostly-numeric object
columns, whitespace-stripping of other object columns) does not itself
introduce new missing values, the reported `missing_after` is at most
`missing_before`. (The normalisation can turn non-coercible strings or
non-string objects into missing cells — see the counterexample — which
is the only way conservativeness fails.) -/
theorem C2_handle_missing (L : Lib) (df : DataFrame) :
    ((handle_missing_values L df).1.nrows = df.nrows
     ∧ (handle_missing_values L df).1.cols.map (fun p => (p.1, p.2.length))
         = df.cols.map (fun p => (p.1, p.2.length))
     ∧ (handle_missing_values L df).2.1.map
         (fun p => (p.1, p.2.missing_before, p.2.missing_after))
         = df.cols.map (fun nc => (nc.1, (cleanColumn L df.nrows nc.2).missing_before,
             (cleanColumn L df.nrows nc.2).missing_after)))
    ∧ ∀ nm c, (nm, c) ∈ df.cols →
        (normalizeCol L df.nrows c).missingCount = c.missingCount →
        (cleanColumn L df.nrows c).missing_after
          ≤ (cleanColumn L df.nrows c).missing_before := by
  refine ⟨⟨rfl, ?_, ?_⟩, ?_⟩
  · show (df.cols.map (fun nc => (nc.1, (cleanColumn L df.nrows nc.2).col))).map
        (fun p => (p.1, p.2.length)) = _
    rw [List.map_map]
    apply List.map_congr_left
    intro nc _
    simp [Function.comp, cleanColumn_col_length]
  · show (df.cols.map _).map _ = _
    rw [List.map_map]
    apply List.map_congr_left
    intro nc _
    rfl
  · intro nm c _ hguard
    exact cleanColumn_conserve L df.nrows c hguard

/-- The frame of the C2 counterexample: a single object column of four
numeric strings and one non-numeric string, with no missing cell. -/
def dfC2 : DataFrame :=
  ⟨5, [(("a"), Col.obj [some (.ostr ("1")), some (.ostr ("2")), some (.ostr ("3")),
    some (.ostr ("4")), some (.ostr ("x"))])]⟩

/-- C2 counterexample: more than 60% of the column coerces, so
`handle_missing_values` replaces it by `pd.to_numeric(...)`, turning
the non-numeric value into NaN; since `missing_before = 0` no fill
runs, and the report shows `missing_after = 1 > 0 = missing_before`,
refuting conservativeness as claimed. -/
theorem C2_counterexample :
    ((handle_missing_values LibNum dfC2).2.1.map
       (fun p => (p.1, p.2.missing_before, p.2.missing_after)))
      = [(("a"), 0, 1)]
    ∧ ¬ ((1 : ℕ) ≤ 0) := by
  exact ⟨by decide, by decide⟩

/-- The frame of the C2 witness: one numeric column with one missing
cell. -/
def dfW2 : DataFrame := ⟨2, [(("a"), Col.num [some 1, none])]⟩

/-- C2 witness: a numeric column is untouched by normalisation, so the
guarded conservativeness applies; shape preservation is instantiated at
the same frame. -/
theorem C2_handle_missing_witness :
    ((normalizeCol LibZero 2 (Col.num [some 1, none])).missingCount
       = (Col.num [some 1, none]).missingCount)
    ∧ (cleanColumn LibZero 2 (Col.num [some 1, none])).missing_after
        ≤ (cleanColumn LibZero 2 (Col.num [some 1, none])).missing_before
    ∧ (handle_missing_values LibZero dfW2).1.nrows = 2 := by
  have hg : (normalizeCol LibZero 2 (Col.num [some (1:ℚ), none])).missingCount
      = (Col.num [some (1:ℚ), none]).missingCount := rfl
  exact ⟨hg,
    (C2_handle_missing LibZero dfW2).2 ("a") (Col.num [some 1, none]) (by simp [dfW2]) hg,
    (C2_handle_missing LibZero dfW2).1.1⟩

theorem sorted_getD_mono (s : List ℚ) (hs : List.Sorted (fun a b : ℚ => a ≤ b) s)
    {i j : ℕ} (hij : i ≤ j) (hj : j < s.length) : s.getD i 0 ≤ s.getD j 0 := by
  have hi : i < s.length := lt_of_le_of_lt hij hj
  rw [List.getD_eq_getElem s 0 hi, List.getD_eq_getElem s 0 hj]
  rcases eq_or_lt_of_le hij with rfl | hlt
  · exact le_refl _
  · have := List.Sorted.rel_get_of_lt hs (a := ⟨i, hi⟩) (b := ⟨j, hj⟩) (by exact hlt)
    simpa [List.get_eq_getElem] using this

theorem quantileQ_mono (vals : List ℚ) (hne : vals ≠ []) {q q' : ℚ}
    (h0 : 0 ≤ q) (hqq : q ≤ q') (h1 : q' ≤ 1) :
    quantileQ vals q ≤ quantileQ vals q' := by
  simp only [quantileQ]
  set s := List.insertionSort (fun a b : ℚ => a ≤ b) vals with hsdef
  have hs : List.Sorted (fun a b : ℚ => a ≤ b) s := List.sorted_insertionSort _ _
  have hm1 : 1 ≤ s.length := by
    have hlen : s.length = vals.length := (List.perm_insertionSort _ _).length_eq
    rw [hlen]
    exact List.length_pos.mpr hne
  set m := s.length with hmdef
  have hM0 : (0:ℚ) ≤ (m:ℚ) - 1 := by
    have : (1:ℚ) ≤ (m:ℚ) := by exact_mod_cast hm1
    linarith
  set h : ℚ := q * ((m:ℚ) - 1) with hh_def
  set h' : ℚ := q' * ((m:ℚ) - 1) with hh'_def
  have hh : h ≤ h' := mul_le_mul_of_nonneg_right hqq hM0
  have h0h : 0 ≤ h := mul_nonneg h0 hM0
  have h0h' : 0 ≤ h' := le_trans h0h hh
  have hupM : h' ≤ (m:ℚ) - 1 := by
    calc h' = q' * ((m:ℚ) - 1) := rfl
    _ ≤ 1 * ((m:ℚ) - 1) := mul_le_mul_of_nonneg_right h1 hM0
    _ = (m:ℚ) - 1 := one_mul _
  have hfl0 : 0 ≤ ⌊h⌋ := Int.floor_nonneg.mpr h0h
  have hfl0' : 0 ≤ ⌊h'⌋ := Int.floor_nonneg.mpr h0h'
  have hfloorM : ⌊(m:ℚ) - 1⌋ = (m:ℤ) - 1 := by
    rw [show (m:ℚ) - 1 = (((m:ℤ) - 1 : ℤ) : ℚ) by push_cast; ring]
    exact Int.floor_intCast _
  have hfl'le : ⌊h'⌋ ≤ (m:ℤ) - 1 := by
    rw [← hfloorM]
    exact Int.floor_mono hupM
  have hile : ⌊h⌋ ≤ ⌊h'⌋ := Int.floor_mono hh
  have hm0 : 0 < m := hm1
  have hi'lt : ⌊h'⌋.toNat < m := by omega
  have hilt : ⌊h⌋.toNat < m := by omega
  have hiq : ((⌊h⌋.toNat : ℕ) : ℚ) = ((⌊h⌋ : ℤ) : ℚ) := by
    exact_mod_cast congrArg (fun z : ℤ => (z : ℚ)) (Int.toNat_of_nonneg hfl0)
  have hiq' : ((⌊h'⌋.toNat : ℕ) : ℚ) = ((⌊h'⌋ : ℤ) : ℚ) := by
    exact_mod_cast congrArg (fun z : ℤ => (z : ℚ)) (Int.toNat_of_nonneg hfl0')
  have hγ0 : 0 ≤ h - ⌊h⌋ := by linarith [Int.floor_le h]
  have hγ1 : h - ⌊h⌋ < 1 := by linarith [Int.lt_floor_add_one h]
  have hγ'0 : 0 ≤ h' - ⌊h'⌋ := by linarith [Int.floor_le h']
  rcases lt_or_eq_of_le hile with hlt | heq
  · -- strictly larger floor: chain through the intermediate order statistics
    have hii' : ⌊h⌋.toNat + 1 ≤ ⌊h'⌋.toNat := by omega
    have hi1lt : ⌊h⌋.toNat + 1 < m := lt_of_le_of_lt hii' hi'lt
    have hd : 0 ≤ s.getD (⌊h⌋.toNat + 1) 0 - s.getD (⌊h⌋.toNat) 0 :=
      sub_nonneg.mpr (sorted_getD_mono s hs (Nat.le_succ _) hi1lt)
    have hstep1 : s.getD (⌊h⌋.toNat) 0
        + (h - ⌊h⌋) * (s.getD (⌊h⌋.toNat + 1) 0 - s.getD (⌊h⌋.toNat) 0)
        ≤ s.getD (⌊h⌋.toNat + 1) 0 := by
      have := mul_le_of_le_one_left hd (le_of_lt hγ1)
      linarith
    have hstep2 : s.getD (⌊h⌋.toNat + 1) 0 ≤ s.getD (⌊h'⌋.toNat) 0 :=
      sorted_getD_mono s hs hii' hi'lt
    have hstep3 : s.getD (⌊h'⌋.toNat) 0 ≤ s.getD (⌊h'⌋.toNat) 0
        + (h' - ⌊h'⌋) * (s.getD (⌊h'⌋.toNat + 1) 0 - s.getD (⌊h'⌋.toNat) 0) := by
      by_cases hedge : ⌊h'⌋.toNat + 1 < m
      · have hd' : 0 ≤ s.getD (⌊h'⌋.toNat + 1) 0 - s.getD (⌊h'⌋.toNat) 0 :=
          sub_nonneg.mpr (sorted_getD_mono s hs (Nat.le_succ _) hedge)
        have := mul_nonneg hγ'0 hd'
        linarith
      · have him : ⌊h'⌋.toNat = m - 1 := by omega
        have hfq : ((⌊h'⌋ : ℤ) : ℚ) = (m:ℚ) - 1 := by
          rw [← hiq', him]
          push_cast [Nat.cast_sub hm1]
          ring
        have hz : h' - ⌊h'⌋ = 0 := by
          have := Int.floor_le h'
          rw [hfq] at this ⊢
          linarith
        rw [hz, zero_mul, add_zero]
    linarith
  · -- equal floors
    rw [← heq] at hiq' ⊢
    by_cases hedge : ⌊h⌋.toNat + 1 < m
    · have hd : 0 ≤ s.getD (⌊h⌋.toNat + 1) 0 - s.getD (⌊h⌋.toNat) 0 :=
        sub_nonneg.mpr (sorted_getD_mono s hs (Nat.le_succ _) hedge)
      have hγγ : h - ⌊h⌋ ≤ h' - ⌊h⌋ := by linarith
      have := mul_le_mul_of_nonneg_right hγγ hd
      linarith
    · have him : ⌊h⌋.toNat = m - 1 := by omega
      have hfq : ((⌊h⌋ : ℤ) : ℚ) = (m:ℚ) - 1 := by
        rw [← hiq, him]
        push_cast [Nat.cast_sub hm1]
        ring
      have hz : h - ⌊h⌋ = 0 := by
        have hfl := Int.floor_le h
        have hhM : h ≤ (m:ℚ) - 1 := le_trans hh hupM
        rw [hfq] at hfl ⊢
        linarith
      have hz' : h' - ⌊h⌋ = 0 := by
        have hfl : ((⌊h'⌋ : ℤ) : ℚ) ≤ h' := Int.floor_le h'
        rw [← heq] at hfl
        rw [hfq] at hfl ⊢
        linarith
      rw [hz, hz']

/-- C6 (amended): every outlier record satisfies
`lower_bound <= Q1 <= Q3 <= upper_bound` and `IQR >= 0` on the reported
(rounded) fields, and a numeric column with fewer than 4 non-missing
values is entirely absent from the result map. The reported `IQR` is
`round(Q3 - Q1, 4)` of the unrounded quartiles, which can differ from
the difference of the reported `Q3` and `Q1` (see the counterexample),
so the literal equation `IQR = Q3 - Q1` does not hold on the record. -/
theorem C6_outlier_bounds (cols : List (String × List (Option ℚ)))
    (hnd : (cols.map Prod.fst).Nodup) :
    (∀ p ∈ detect_outliers cols,
        p.2.lower_bound ≤ p.2.q1 ∧ p.2.q1 ≤ p.2.q3 ∧ p.2.q3 ≤ p.2.upper_bound ∧ 0 ≤ p.2.iqr)
    ∧ (∀ nc ∈ cols, (nc.2.filterMap id).length < 4 →
        nc.1 ∉ (detect_outliers cols).map Prod.fst) := by
  constructor
  · intro p hp
    obtain ⟨nc, hnc, hf⟩ := List.mem_filterMap.mp hp
    by_cases hlen : (nc.2.filterMap id).length < 4
    · rw [if_pos hlen] at hf
      cases hf
    · rw [if_neg hlen] at hf
      obtain rfl : (nc.1, outlierRec (nc.2.filterMap id)) = p := Option.some.inj hf
      have hne : nc.2.filterMap id ≠ [] := by
        intro hv
        rw [hv] at hlen
        simp at hlen
      have hQ : quantileQ (nc.2.filterMap id) (1/4) ≤ quantileQ (nc.2.filterMap id) (3/4) :=
        quantileQ_mono _ hne (by norm_num) (by norm_num) (by norm_num)
      simp only [outlierRec]
      refine ⟨round4_mono (by nlinarith), round4_mono hQ, round4_mono (by nlinarith),
        round4_nonneg (by linarith)⟩
  · intro nc hnc hlen hmem
    obtain ⟨p, hp, hpf⟩ := List.mem_map.mp hmem
    obtain ⟨nc', hnc', hf⟩ := List.mem_filterMap.mp hp
    by_cases hlen' : (nc'.2.filterMap id).length < 4
    · rw [if_pos hlen'] at hf
      cases hf
    · rw [if_neg hlen'] at hf
      obtain rfl : (nc'.1, outlierRec (nc'.2.filterMap id)) = p := Option.some.inj hf
      have hkey : nc'.1 = nc.1 := hpf
      have : nc' = nc := nodup_keys_eq hnd nc' nc hnc' hnc hkey
      rw [this] at hlen'
      exact hlen' hlen

/-- The numeric columns of the C6 counterexample: four values whose
quartiles are Q1 = 0.00006 and Q3 = 0.00024. -/
def colsC6 : List (String × List (Option ℚ)) :=
  [(("c"), [some 0, some (8/100000), some (2/10000), some (36/100000)])]

/-- C6 counterexample: on the column above the record reports
`Q1 = 0.0001`, `Q3 = 0.0002` and `IQR = 0.0002` — each rounded to four
places separately — so the reported `IQR` differs from the difference
`Q3 - Q1 = 0.0001` of the reported quartiles, refuting the claimed
record equation `IQR = Q3 - Q1`. -/
theorem C6_counterexample :
    (detect_outliers colsC6).map (fun p => (p.1, p.2.q1, p.2.q3, p.2.iqr))
      = [(("c"), 1/10000, 2/10000, 2/10000)]
    ∧ ((2 : ℚ)/10000) ≠ (2 : ℚ)/10000 - 1/10000 := by
  have hsort : List.insertionSort (fun a b : ℚ => a ≤ b) [(0:ℚ), 8/100000, 2/10000, 36/100000]
      = [(0:ℚ), 8/100000, 2/10000, 36/100000] := by
    norm_num [List.insertionSort, List.orderedInsert]
  have hQ1 : quantileQ [(0:ℚ), 8/100000, 2/10000, 36/100000] (1/4) = 6/100000 := by
    simp only [quantileQ]
    rw [hsort]
    norm_num [List.getD_cons_zero, List.getD_cons_succ]
  have hQ3 : quantileQ [(0:ℚ), 8/100000, 2/10000, 36/100000] (3/4) = 24/100000 := by
    simp only [quantileQ]
    rw [hsort]
    norm_num [List.getD_cons_zero, List.getD_cons_succ,
      (show ((2:ℤ).toNat : ℕ) = 2 from rfl),
      List.getElem_cons_zero, List.getElem_cons_succ]
  have hr1 : round4 (6/100000 : ℚ) = 1/10000 := by
    simp only [round4, roundScale, roundHE]
    norm_num
  have hr3 : round4 (24/100000 : ℚ) = 2/10000 := by
    simp only [round4, roundScale, roundHE]
    norm_num
  have hriqr : round4 (24/100000 - 6/100000 : ℚ) = 2/10000 := by
    simp only [round4, roundScale, roundHE]
    norm_num
  have h1 : detect_outliers colsC6
      = [(("c"), outlierRec [(0:ℚ), 8/100000, 2/10000, 36/100000])] := rfl
  rw [h1, List.map_cons, List.map_nil]
  refine ⟨?_, by norm_num⟩
  simp only [outlierRec, hQ1, hQ3, hr1, hr3, hriqr]

/-- The numeric columns of the C6 witness: Scenario C of the spec plus a
column too short to be reported. -/
def colsW6 : List (String × List (Option ℚ)) :=
  [(("score"), [some 1, some 2, some 3, some 4, some 100]), (("tiny"), [some 1])]

/-- C6 witness: the five-value column is reported and its record
satisfies the orderings; the one-value column is absent from the map. -/
theorem C6_outlier_bounds_witness :
    (("score"), outlierRec [(1:ℚ), 2, 3, 4, 100]) ∈ detect_outliers colsW6
    ∧ ((outlierRec [(1:ℚ), 2, 3, 4, 100]).lower_bound ≤ (outlierRec [(1:ℚ), 2, 3, 4, 100]).q1
       ∧ (outlierRec [(1:ℚ), 2, 3, 4, 100]).q1 ≤ (outlierRec [(1:ℚ), 2, 3, 4, 100]).q3
       ∧ (outlierRec [(1:ℚ), 2, 3, 4, 100]).q3 ≤ (outlierRec [(1:ℚ), 2, 3, 4, 100]).upper_bound
       ∧ 0 ≤ (outlierRec [(1:ℚ), 2, 3, 4, 100]).iqr)
    ∧ ("tiny") ∉ (detect_outliers colsW6).map Prod.fst := by
  have hnd : (colsW6.map Prod.fst).Nodup := by
    simp [colsW6]
  have hdet : detect_outliers colsW6 = [(("score"), outlierRec [(1:ℚ), 2, 3, 4, 100])] := rfl
  have hmem : (("score"), outlierRec [(1:ℚ), 2, 3, 4, 100]) ∈ detect_outliers colsW6 := by
    rw [hdet]
    exact List.mem_singleton.mpr rfl
  exact ⟨hmem, (C6_outlier_bounds colsW6 hnd).1 _ hmem,
    (C6_outlier_bounds colsW6 hnd).2 (("tiny"), [some 1]) (by simp [colsW6]) (by decide)⟩

theorem pairRows_swap : ∀ (x y : List (Option ℚ)),
    pairRows y x = (pairRows x y).map Prod.swap := by
  intro x
  induction x with
  | nil =>
    intro y
    cases y <;> simp [pairRows]
  | cons a x' ih =>
    intro y
    cases y with
    | nil => simp [pairRows]
    | cons b y' =>
      cases a <;> cases b <;>
        simp [pairRows, List.zip_cons_cons, List.filterMap_cons, Option.bind] <;>
        simpa [pairRows] using ih y'

theorem pairRows_self : ∀ (x : List (Option ℚ)),
    pairRows x x = (x.filterMap id).map (fun a => (a, a)) := by
  intro x
  induction x with
  | nil => simp [pairRows]
  | cons a x' ih =>
    cases a <;>
      simp [pairRows, List.zip_cons_cons, List.filterMap_cons, Option.bind] <;>
      simpa [pairRows] using ih

theorem sqSum_nonneg (l : List ℚ) : 0 ≤ sqSum l := by
  unfold sqSum
  apply List.sum_nonneg
  intro x hx
  obtain ⟨a, ha, rfl⟩ := List.mem_map.mp hx
  positivity

theorem covSum_swap (ps : List (ℚ × ℚ)) : covSum (ps.map Prod.swap) = covSum ps := by
  unfold covSum
  rw [show (ps.map Prod.swap).map Prod.fst = ps.map Prod.snd by rw [List.map_map]; rfl,
    show (ps.map Prod.swap).map Prod.snd = ps.map Prod.fst by rw [List.map_map]; rfl,
    List.map_map]
  congr 1
  apply List.map_congr_left
  intro p _
  simp only [Function.comp, Prod.swap]
  ring

theorem pearson_symm (x y : List (Option ℚ)) : pearson x y = pearson y x := by
  unfold pearson
  rw [pairRows_swap x y,
    show ((pairRows x y).map Prod.swap).map Prod.fst = (pairRows x y).map Prod.snd by
      rw [List.map_map]; rfl,
    show ((pairRows x y).map Prod.swap).map Prod.snd = (pairRows x y).map Prod.fst by
      rw [List.map_map]; rfl,
    covSum_swap]
  by_cases h : sqSum ((pairRows x y).map Prod.fst) = 0 ∨ sqSum ((pairRows x y).map Prod.snd) = 0
  · rw [if_pos h, if_pos (Or.symm h)]
  · rw [if_neg h, if_neg (fun hc => h (Or.symm hc))]
    rw [mul_comm ((sqSum ((pairRows x y).map Prod.snd) : ℚ) : ℝ)
      ((sqSum ((pairRows x y).map Prod.fst) : ℚ) : ℝ)]

theorem pearson_self (x : List (Option ℚ)) (h : sqSum (x.filterMap id) ≠ 0) :
    pearson x x = some 1 := by
  unfold pearson
  rw [pairRows_self x]
  have hfst : ((x.filterMap id).map (fun a => (a, a))).map Prod.fst = x.filterMap id := by
    rw [List.map_map, show (Prod.fst ∘ fun a : ℚ => (a, a)) = id from rfl, List.map_id]
  have hsnd : ((x.filterMap id).map (fun a => (a, a))).map Prod.snd = x.filterMap id := by
    rw [List.map_map, show (Prod.snd ∘ fun a : ℚ => (a, a)) = id from rfl, List.map_id]
  rw [hfst, hsnd]
  rw [if_neg (by simp [h])]
  have hcov : covSum ((x.filterMap id).map (fun a => (a, a))) = sqSum (x.filterMap id) := by
    unfold covSum sqSum
    rw [hfst, hsnd, List.map_map]
    congr 1
    apply List.map_congr_left
    intro a _
    simp only [Function.comp]
    ring
  rw [hcov]
  have hS0 : (0:ℝ) ≤ ((sqSum (x.filterMap id) : ℚ) : ℝ) := by
    exact_mod_cast sqSum_nonneg (x.filterMap id)
  rw [Real.sqrt_mul_self hS0, div_self (by exact_mod_cast h)]

theorem corrEntry_symm (x y : List (Option ℚ)) : corrEntry x y = corrEntry y x := by
  unfold corrEntry
  rw [pearson_symm]

theorem corrEntry_self_one (x : List (Option ℚ)) (h : sqSum (x.filterMap id) ≠ 0) :
    corrEntry x x = 1 := by
  unfold corrEntry
  rw [pearson_self x h]
  rfl

theorem corrEntry_zero (x y : List (Option ℚ))
    (h : sqSum ((pairRows x y).map Prod.fst) = 0) : corrEntry x y = 0 := by
  unfold corrEntry pearson
  rw [if_pos (Or.inl h)]
  rfl

theorem lookup_map_nodup {β γ : Type} (l : List (String × β)) (g : String × β → γ)
    (hnd : (l.map Prod.fst).Nodup) (a : String × β) (ha : a ∈ l) :
    (l.map (fun p => (p.1, g p))).lookup a.1 = some (g a) := by
  induction l with
  | nil => cases ha
  | cons p l' ih =>
    simp only [List.map_cons, List.nodup_cons] at hnd
    rcases List.mem_cons.mp ha with rfl | ha'
    · simp [List.lookup]
    · by_cases he : a.1 = p.1
      · exact absurd (he ▸ List.mem_map_of_mem Prod.fst ha') hnd.1
      · simp only [List.map_cons, List.lookup]
        rw [show (a.1 == p.1) = false from beq_eq_false_iff_ne.mpr he]
        exact ih hnd.2 ha'

/-- C8: the correlation step — in exact real arithmetic, with the NaN
of float division modelled by `Option` and `fillna(0)` by `getD 0` —
is empty when fewer than 2 numeric columns exist; otherwise every
matrix entry at `(nx, ny)` equals `corrEntry x y`, which is symmetric,
equals 1 on the diagonal whenever the column's centered sum of squares
is nonzero, and is reported as 0 (not null) whenever the pairwise
Pearson denominator vanishes, e.g. for a constant column. -/
theorem C8_correlation_matrix (cols : List (String × List (Option ℚ)))
    (hnd : (cols.map Prod.fst).Nodup) :
    (cols.length < 2 → corrMatrixR cols = [])
    ∧ (∀ nx x ny y, (nx, x) ∈ cols → (ny, y) ∈ cols → 2 ≤ cols.length →
        ((corrMatrixR cols).lookup nx).map (fun row => row.lookup ny)
          = some (some (corrEntry x y)))
    ∧ (∀ x y, corrEntry x y = corrEntry y x)
    ∧ (∀ x, sqSum (x.filterMap id) ≠ 0 → corrEntry x x = 1)
    ∧ (∀ x y, sqSum ((pairRows x y).map Prod.fst) = 0 → corrEntry x y = 0) := by
  refine ⟨?_, ?_, corrEntry_symm, corrEntry_self_one, corrEntry_zero⟩
  · intro h
    unfold corrMatrixR
    rw [if_pos h]
  · intro nx x ny y hx hy hlen
    unfold corrMatrixR
    rw [if_neg (by omega)]
    have h1 := lookup_map_nodup cols
      (fun a => cols.map (fun b => (b.1, corrEntry a.2 b.2))) hnd (nx, x) hx
    rw [h1, Option.map_some']
    have h2 := lookup_map_nodup cols (fun b => corrEntry x b.2) hnd (ny, y) hy
    rw [h2]

/-- The numeric columns of the C8 witness. -/
def colsW8 : List (String × List (Option ℚ)) :=
  [(("a"), [some 1, some 2, some 3]), (("b"), [some 1, some 2, some 3])]

/-- C8 witness: a two-column frame; the diagonal entry of a column with
nonzero variance is 1 and the (a, b) matrix entry is the Pearson entry. -/
theorem C8_correlation_matrix_witness :
    corrEntry [some (1:ℚ), some 2, some 3] [some (1:ℚ), some 2, some 3] = 1
    ∧ ((corrMatrixR colsW8).lookup ("a")).map (fun row => row.lookup ("b"))
        = some (some (corrEntry [some (1:ℚ), some 2, some 3] [some (1:ℚ), some 2, some 3])) := by
  have hnd : (colsW8.map Prod.fst).Nodup := by simp [colsW8]
  have hvar : sqSum (([some (1:ℚ), some 2, some 3] : List (Option ℚ)).filterMap id) ≠ 0 := by
    show sqSum [(1:ℚ), 2, 3] ≠ 0
    norm_num [sqSum, qMean]
  exact ⟨(C8_correlation_matrix colsW8 hnd).2.2.2.1 _ hvar,
    (C8_correlation_matrix colsW8 hnd).2.1 ("a") _ ("b") _
      (by simp [colsW8]) (by simp [colsW8]) (by simp [colsW8])⟩

/-- The keys of a top-level report value (empty for non-dicts). -/
def topKeys : PyVal → List String
  | .pDict d => d.keys
  | _ => []

/-- Look a key up at the top level of a report value. -/
def topLookup (k : String) : PyVal → Option PyVal
  | .pDict d => d.lookup k
  | _ => none

/-- The twelve keys of the dict literal `perform_eda` returns
(lines 488-524), in order. -/
def reportKeys : List String :=
  ["overview", "dataset_info", "nunique", "missing_handling_process",
   "before_after_missing", "data_quality", "statistics", "value_counts",
   "preview", "visualization", "advanced_visualization", "insights"]

theorem toPyDict_keys : ∀ (l : List (String × PyVal)), (toPyDict l).keys = l.map Prod.fst
  | [] => rfl
  | kv :: rest => by simp [toPyDict, PyDict.keys, toPyDict_keys rest]

theorem topKeys_clean (d : PyDict) : topKeys (clean_json (.pDict d)) = d.keys := by
  simp [clean_json, topKeys, clean_json_dict_keys]

theorem topLookup_clean (k : String) (d : PyDict) (hk : k ∉ d.keys) :
    topLookup k (clean_json (.pDict d)) = none := by
  simp only [clean_json, topLookup]
  apply PyDict.lookup_eq_none_of_not_mem
  rw [clean_json_dict_keys]
  exact hk

/-- C1 (amended): `perform_eda` performs no zero-row check at all — for
every library behaviour and every dataframe, zero-row ones included, it
returns the standard report mapping whose keys are exactly the twelve
report keys, and the mapping never contains an `error` key. -/
theorem C1_perform_eda_report_shape (L : Lib) (df : DataFrame) :
    topKeys (perform_eda L df) = reportKeys
    ∧ topLookup ("error") (perform_eda L df) = none := by
  constructor
  · unfold perform_eda
    rw [topKeys_clean, toPyDict_keys]
    rfl
  · unfold perform_eda
    apply topLookup_clean
    rw [toPyDict_keys]
    show ("error" : String) ∉ reportKeys
    decide

/-- The zero-row frame of the C1 counterexample: one object column with
no cells. -/
def dfC1 : DataFrame := ⟨0, [(("a"), Col.obj [])]⟩

/-- C1 counterexample: on a zero-row dataset `perform_eda` does *not*
return a structured empty-dataset error — there is no `error` key —
and profiling proceeds normally: the full report mapping is produced,
its overview records 0 rows, and the statistics section is simply
empty. This refutes the claimed fail-fast behaviour. -/
theorem C1_empty_dataset_counterexample :
    topLookup ("error") (perform_eda LibZero dfC1) = none
    ∧ topKeys (perform_eda LibZero dfC1) = reportKeys
    ∧ topLookup ("overview") (perform_eda LibZero dfC1)
        = some (.pDict (.cons ("rows") (.pInt 0) (.cons ("columns") (.pInt 1)
            (.cons ("numeric_columns") (.pList .nil)
            (.cons ("categorical_columns") (.pList (.cons (.pStr ("a")) .nil))
            (.cons ("datetime_columns") (.pList .nil)
            (.cons ("date_formats") (.pDict .nil) .nil)))))))
    ∧ topLookup ("statistics") (perform_eda LibZero dfC1) = some (.pDict .nil) := by
  refine ⟨?_, ?_, ?_, ?_⟩ <;> rfl
